import Mathlib

/-!
The spanEventstoLog connector: a shallow embedding.

The connector (`connector.go`) walks a batch of traces, filters spans and span
events with compiled OTTL statements, and appends one log record per matching
(span, event) pair to a fresh log batch.  `config.go` validates the
configuration, including a walk over the parsed log body template.

The pdata containers, the OTTL statements and `text/template` are libraries
outside the repository.  They are represented here by plain data (ordered
key/value slices, ordered lists) and, where they compute something the
repository only calls, by functions carried as parameters.
-/

namespace SpanEventsToLog

/-! ## pdata values and maps -/

/-- A `pcommon.Value`: one constructor per value type.  An `int` is an int64,
a `double` is kept as its 64 bit pattern, `bytes` is the list of byte values. -/
inductive Value where
  | empty : Value
  | str (s : String) : Value
  | int (i : Int) : Value
  | double (bits : Nat) : Value
  | bool (b : Bool) : Value
  | bytes (b : List Nat) : Value
  | slice (vs : List Value) : Value
  | map (kvs : List (String × Value)) : Value

/-- A `pcommon.Map`: the ordered slice of key/value entries. -/
abbrev Map := List (String × Value)

/-- Go `Map.Get`: the value of the first entry with the key, if there is one. -/
def Map.Get : Map → String → Option Value
  | [], _ => none
  | (k, v) :: rest, key => if k = key then some v else Map.Get rest key

/-- Writing through the handle that `Map.Get` returns: the first entry with the
key is overwritten in place. -/
def Map.setFirst : Map → String → Value → Map
  | [], _, _ => []
  | (k, v) :: rest, key, val =>
    if k = key then (k, val) :: rest else (k, v) :: Map.setFirst rest key val

/-- Go `Map.PutStr`: overwrite the entry found by `Get`, else append a new one. -/
def Map.PutStr (m : Map) (k : String) (v : String) : Map :=
  match Map.Get m k with
  | some _ => Map.setFirst m k (Value.str v)
  | none => m ++ [(k, Value.str v)]

/-- Go `Map.PutEmpty`: reset the entry found by `Get` to the empty value, else
append a new empty entry.  The Go method returns a handle on that entry. -/
def Map.PutEmpty (m : Map) (k : String) : Map :=
  match Map.Get m k with
  | some _ => Map.setFirst m k Value.empty
  | none => m ++ [(k, Value.empty)]

/-- Go `Value.CopyTo` has value semantics: the destination becomes a deep copy of
the source, whatever its type. -/
def Value.CopyTo (src : Value) (_dest : Value) : Value := src

/-- The statement `v.CopyTo(attrs.PutEmpty(key))`: `PutEmpty` yields the entry
for `key`, and `CopyTo` overwrites that entry with a copy of `v`. -/
def Map.putCopy (attrs : Map) (key : String) (v : Value) : Map :=
  let attrs1 := Map.PutEmpty attrs key
  match Map.Get attrs1 key with
  | some dest => Map.setFirst attrs1 key (Value.CopyTo v dest)
  | none => attrs1

/-- Go `Map.Range` with a callback that always returns `true`: every entry is
visited in slice order; `f` threads the state the callback mutates. -/
def Map.Range {σ : Type} (m : Map) (f : σ → String → Value → σ) (init : σ) : σ :=
  m.foldl (fun acc kv => f acc kv.1 kv.2) init

/-- Go `Value.AsString`.  Strings, booleans, integers and the empty value are
rendered here; doubles, bytes, slices and maps go through `render` (float
formatting, base64 and JSON encoding of the pdata library). -/
def Value.AsString (render : Value → String) : Value → String
  | Value.empty => ""
  | Value.str s => s
  | Value.bool b => if b then "true" else "false"
  | Value.int i => toString i
  | v => render v

/-! ## Traces -/

/-- Go `pcommon.Resource`. -/
structure Resource where
  Attributes : Map
  DroppedAttributesCount : Nat

/-- Go `pcommon.InstrumentationScope`. -/
structure InstrumentationScope where
  Name : String
  Version : String
  Attributes : Map
  DroppedAttributesCount : Nat

/-- Go `ptrace.SpanEvent`. -/
structure SpanEvent where
  Timestamp : Nat
  Name : String
  Attributes : Map
  DroppedAttributesCount : Nat

/-- Go `ptrace.Span`.  Trace and span identifiers are the 16 and 8 bytes read as
a number; `Kind` is the int32 of `ptrace.SpanKind`. -/
structure Span where
  TraceID : Nat
  SpanID : Nat
  ParentSpanID : Nat
  Name : String
  Kind : Int
  StartTimestamp : Nat
  EndTimestamp : Nat
  Attributes : Map
  Events : List SpanEvent

/-- Go `ptrace.ScopeSpans`. -/
structure ScopeSpans where
  Scope : InstrumentationScope
  Spans : List Span
  SchemaUrl : String

/-- Go `ptrace.ResourceSpans`. -/
structure ResourceSpans where
  Resource : Resource
  ScopeSpans : List ScopeSpans
  SchemaUrl : String

/-- Go `ptrace.Traces`, through its `ResourceSpans()` slice. -/
abbrev Traces := List ResourceSpans

/-- Go `ptrace.SpanKind.String`. -/
def SpanKind.String (sk : Int) : String :=
  if sk = 0 then "Unspecified"
  else if sk = 1 then "Internal"
  else if sk = 2 then "Server"
  else if sk = 3 then "Client"
  else if sk = 4 then "Producer"
  else if sk = 5 then "Consumer"
  else ""

/-! ## Logs -/

/-- Go `plog.LogRecord`. -/
structure LogRecord where
  Timestamp : Nat
  ObservedTimestamp : Nat
  SeverityText : String
  SeverityNumber : Int
  Body : Value
  TraceID : Nat
  SpanID : Nat
  Flags : Nat
  Attributes : Map

/-- Go `plog.ScopeLogs`. -/
structure ScopeLogs where
  Scope : InstrumentationScope
  LogRecords : List LogRecord
  SchemaUrl : String

/-- Go `plog.ResourceLogs`. -/
structure ResourceLogs where
  Resource : Resource
  ScopeLogs : List ScopeLogs
  SchemaUrl : String

/-- Go `plog.Logs`, through its `ResourceLogs()` slice. -/
abbrev Logs := List ResourceLogs

/-- The record that `LogRecordSlice.AppendEmpty` creates. -/
def LogRecord.zero : LogRecord :=
  { Timestamp := 0, ObservedTimestamp := 0, SeverityText := "", SeverityNumber := 0,
    Body := Value.empty, TraceID := 0, SpanID := 0, Flags := 0, Attributes := [] }

/-- The resource of a `ResourceLogs` created by `AppendEmpty`. -/
def Resource.zero : Resource := { Attributes := [], DroppedAttributesCount := 0 }

/-- The scope of a `ScopeLogs` created by `AppendEmpty`. -/
def InstrumentationScope.zero : InstrumentationScope :=
  { Name := "", Version := "", Attributes := [], DroppedAttributesCount := 0 }

/-- Go `Resource.CopyTo`: the destination becomes a copy of the source. -/
def Resource.CopyTo (src : Resource) (_dest : Resource) : Resource := src

/-- Go `InstrumentationScope.CopyTo`: the destination becomes a copy of the source. -/
def InstrumentationScope.CopyTo (src : InstrumentationScope) (_dest : InstrumentationScope) :
    InstrumentationScope := src

/-! ## Parsed templates (`text/template/parse`) -/

/-- A node of a parsed template, as the interface value `parse.Node`.  Pointer
fields are those of a tree returned by a successful parse: the else list of an
`if`, `range` or `with` node is a nil pointer when the block has no else
branch (`none` here), and the pipe of a `template` node is nil when the
invocation has no argument. -/
inductive Node where
  | List (nodes : List Node) : Node
  | Text (text : String) : Node
  | Comment (text : String) : Node
  | Action (pipe : Node) : Node
  | Pipe (isAssign : Bool) (decl : List (List String)) (cmds : List Node) : Node
  | Command (args : List Node) : Node
  | Identifier (ident : String) : Node
  | Variable (ident : List String) : Node
  | Dot : Node
  | Nil : Node
  | Field (ident : List String) : Node
  | Chain (node : Node) (field : List String) : Node
  | Bool (b : Bool) : Node
  | Number (text : String) : Node
  | String (quoted : String) (text : String) : Node
  | If (pipe : Node) (list : Node) (elseList : Option Node) : Node
  | Range (pipe : Node) (list : Node) (elseList : Option Node) : Node
  | With (pipe : Node) (list : Node) (elseList : Option Node) : Node
  | Break : Node
  | Continue : Node
  | Template (name : String) (pipe : Option Node) : Node

/-- The data a log body template is executed on. -/
structure TemplateData where
  EventName : String
  SpanName : String
  EventAttributes : List (String × String)
  SpanAttributes : List (String × String)

/-- A parsed `*template.Template`.  `Templates` is what `Templates()` returns:
the root of each associated template, `none` for an entry that is nil or has a
nil `Tree`.  `Execute` is the library's execution on the four-value data: the
text written to the buffer and the error, if any. -/
structure Template where
  Templates : List (Option Node)
  Execute : TemplateData → String × Option String

/-- Assignment `m[k] = v` on a Go `map[string]string`, kept as an association
list with one entry per key. -/
def StringMap.set : List (String × String) → String → String → List (String × String)
  | [], k, v => [(k, v)]
  | (k0, v0) :: rest, k, v =>
    if k0 = k then (k0, v) :: rest else (k0, v0) :: StringMap.set rest k v

/-! ## Configuration -/

/-- Go `Config` of config.go. -/
structure Config where
  SpanConditions : List String
  EventConditions : List String
  IncludeSpanAttributes : Bool
  IncludeEventAttributes : Bool
  LogLevel : String
  LogBodyTemplate : String

/-! ## OTTL statements -/

/-- A value of Go type `any` returned by a statement: nil, a boolean, or a
value of some other dynamic type. -/
inductive GoAny where
  | nil : GoAny
  | bool (b : Bool) : GoAny
  | other (description : String) : GoAny

/-- The type assertion `ok, _ := result.(bool)`: the boolean when the dynamic
type is bool, the zero value `false` otherwise. -/
def GoAny.assertBool : GoAny → Bool
  | GoAny.bool b => b
  | _ => false

/-- The three results of `Statement.Execute`. -/
structure ExecOut where
  result : GoAny
  ran : Bool
  err : Option String

/-- A compiled `*ottl.Statement[K]`, through its `Execute` method. -/
structure Statement (K : Type) where
  Execute : K → ExecOut

/-- Go `ottlspan.TransformContext`. -/
structure SpanTransformContext where
  span : Span
  scope : InstrumentationScope
  resource : Resource
  scopeSpans : ScopeSpans
  resourceSpans : ResourceSpans

/-- Go `ottlspanevent.TransformContext`. -/
structure EventTransformContext where
  event : SpanEvent
  span : Span
  scope : InstrumentationScope
  resource : Resource
  scopeSpans : ScopeSpans
  resourceSpans : ResourceSpans

/-! ## The connector (connector.go) -/

/-- Go `SpanEventConnector`.  The consumer is its `ConsumeLogs` method (the error
it returns, if any); a counter is `true` when the instrument is not nil.  The
logger is a diagnostic sink and is left out.  `render` is the pdata rendering
used by `Value.AsString` for doubles, bytes, slices and maps. -/
structure SpanEventConnector where
  config : Config
  consumer : Logs → Option String
  bodyTemplate : Option Template
  spanOttl : List (Statement SpanTransformContext)
  eventOttl : List (Statement EventTransformContext)
  spansHandledCounter : Bool
  logsProducedCounter : Bool
  render : Value → String

/-- The loop `for _, stmt := range stmts` shared by the two matching
functions: an execution error skips to the next statement, a result that is
the boolean true returns true, and the end of the list returns false. -/
def anyStatementTrue {K : Type} : List (Statement K) → K → Bool
  | [], _ => false
  | stmt :: rest, ctx =>
    let out := stmt.Execute ctx
    match out.err with
    | some _ => anyStatementTrue rest ctx
    | none => if GoAny.assertBool out.result then true else anyStatementTrue rest ctx

/-- Go `matchesSpanConditionsWithContext` (connector.go 166-182). -/
def matchesSpanConditionsWithContext (c : SpanEventConnector) (span : Span)
    (resource : Resource) (scope : InstrumentationScope) (scopeSpans : ScopeSpans)
    (resourceSpans : ResourceSpans) : Bool :=
  if c.spanOttl.length = 0 then true
  else
    let ctx : SpanTransformContext :=
      { span := span, scope := scope, resource := resource, scopeSpans := scopeSpans,
        resourceSpans := resourceSpans }
    anyStatementTrue c.spanOttl ctx

/-- Go `matchesEventConditionsWithContext` (connector.go 184-200). -/
def matchesEventConditionsWithContext (c : SpanEventConnector) (event : SpanEvent) (span : Span)
    (resource : Resource) (scope : InstrumentationScope) (scopeSpans : ScopeSpans)
    (resourceSpans : ResourceSpans) : Bool :=
  if c.eventOttl.length = 0 then true
  else
    let ctx : EventTransformContext :=
      { event := event, span := span, scope := scope, resource := resource,
        scopeSpans := scopeSpans, resourceSpans := resourceSpans }
    anyStatementTrue c.eventOttl ctx

/-- Go `getSeverityNumber` (connector.go 295-312), with the values of the
`plog.SeverityNumber` constants. -/
def getSeverityNumber (level : String) : Int :=
  match level with
  | "Trace" => 1
  | "Debug" => 5
  | "Info" => 9
  | "Warn" => 13
  | "Error" => 17
  | "Fatal" => 21
  | _ => 9

/-- Go `generateLogBody` (connector.go 254-293). -/
def generateLogBody (c : SpanEventConnector) (event : SpanEvent) (span : Span) : String :=
  match c.bodyTemplate with
  | none => "Span Event: " ++ event.Name
  | some tmpl =>
    let data : TemplateData :=
      { EventName := event.Name
        SpanName := span.Name
        EventAttributes :=
          Map.Range event.Attributes
            (fun attrs k v => StringMap.set attrs k (Value.AsString c.render v)) []
        SpanAttributes :=
          Map.Range span.Attributes
            (fun attrs k v => StringMap.set attrs k (Value.AsString c.render v)) [] }
    match tmpl.Execute data with
    | (_, some _) => "Span Event: " ++ event.Name
    | (buf, none) => buf

/-- The log record filled in by `createLogRecord` (connector.go 215-251),
starting from the empty record that `AppendEmpty` returns. -/
def createLogRecord.record (c : SpanEventConnector) (event : SpanEvent) (span : Span) :
    LogRecord :=
  let logRecord := LogRecord.zero
  let logRecord := { logRecord with Timestamp := event.Timestamp }
  let logRecord := { logRecord with SeverityText := c.config.LogLevel }
  let logRecord := { logRecord with SeverityNumber := getSeverityNumber c.config.LogLevel }
  let body := generateLogBody c event span
  let logRecord := { logRecord with Body := Value.str body }
  let logRecord := { logRecord with TraceID := span.TraceID }
  let logRecord := { logRecord with SpanID := span.SpanID }
  let logRecord := { logRecord with Flags := 0 }
  let attrs := logRecord.Attributes
  let attrs := Map.PutStr attrs "span.name" span.Name
  let attrs := Map.PutStr attrs "span.kind" (SpanKind.String span.Kind)
  let attrs := Map.PutStr attrs "event.name" event.Name
  let attrs :=
    if c.config.IncludeSpanAttributes then
      Map.Range span.Attributes (fun attrs k v => Map.putCopy attrs ("span." ++ k) v) attrs
    else attrs
  let attrs :=
    if c.config.IncludeEventAttributes then
      Map.Range event.Attributes (fun attrs k v => Map.putCopy attrs ("event." ++ k) v) attrs
    else attrs
  { logRecord with Attributes := attrs }

/-- Go `createLogRecord` (connector.go 202-252): one new `ResourceLogs` with a copy
of the resource, holding one new `ScopeLogs` with a copy of the scope, holding
the one new record; it is appended to the batch. -/
def createLogRecord (c : SpanEventConnector) (event : SpanEvent) (span : Span)
    (resource : Resource) (scope : InstrumentationScope) (logs : Logs) : Logs :=
  let sl : ScopeLogs :=
    { Scope := InstrumentationScope.CopyTo scope InstrumentationScope.zero
      LogRecords := [createLogRecord.record c event span]
      SchemaUrl := "" }
  let rl : ResourceLogs :=
    { Resource := Resource.CopyTo resource Resource.zero
      ScopeLogs := [sl]
      SchemaUrl := "" }
  logs ++ [rl]

/-- The variables `ConsumeTraces` updates in its loops.  The counters are
int64 in Go; a batch held in memory has far fewer than 2^63 spans and events,
so they are natural numbers here. -/
structure LoopState where
  logs : Logs
  numSpansHandled : Nat
  numLogsProduced : Nat

/-- Body of the loop over the events of a span (connector.go 141-145). -/
def ConsumeTraces.eventStep (c : SpanEventConnector) (span : Span) (resource : Resource)
    (scope : InstrumentationScope) (scopeSpans : ScopeSpans) (resourceSpans : ResourceSpans)
    (st : LoopState) (event : SpanEvent) : LoopState :=
  if matchesEventConditionsWithContext c event span resource scope scopeSpans resourceSpans then
    { st with
      logs := createLogRecord c event span resource scope st.logs
      numLogsProduced := st.numLogsProduced + 1 }
  else st

/-- Body of the loop over the spans of a scope (connector.go 135-146). -/
def ConsumeTraces.spanStep (c : SpanEventConnector) (resource : Resource)
    (scope : InstrumentationScope) (scopeSpans : ScopeSpans) (resourceSpans : ResourceSpans)
    (st : LoopState) (span : Span) : LoopState :=
  if !matchesSpanConditionsWithContext c span resource scope scopeSpans resourceSpans then st
  else
    let st := { st with numSpansHandled := st.numSpansHandled + 1 }
    span.Events.foldl (ConsumeTraces.eventStep c span resource scope scopeSpans resourceSpans) st

/-- Body of the loop over the scopes of a resource (connector.go 131-147). -/
def ConsumeTraces.scopeStep (c : SpanEventConnector) (resource : Resource)
    (resourceSpans : ResourceSpans) (st : LoopState) (scopeSpans : ScopeSpans) : LoopState :=
  let scope := scopeSpans.Scope
  scopeSpans.Spans.foldl (ConsumeTraces.spanStep c resource scope scopeSpans resourceSpans) st

/-- Body of the loop over the resources of the batch (connector.go 127-148). -/
def ConsumeTraces.resourceStep (c : SpanEventConnector) (st : LoopState)
    (resourceSpans : ResourceSpans) : LoopState :=
  let resource := resourceSpans.Resource
  resourceSpans.ScopeSpans.foldl (ConsumeTraces.scopeStep c resource resourceSpans) st

/-- The traversal of `ConsumeTraces` (connector.go 120-149): the state after
the four nested loops, from an empty batch and zero counts. -/
def ConsumeTraces.traverse (c : SpanEventConnector) (td : Traces) : LoopState :=
  td.foldl (ConsumeTraces.resourceStep c) { logs := [], numSpansHandled := 0, numLogsProduced := 0 }

/-- What one call of `ConsumeTraces` does: the batch it accumulated, the
batches handed to the consumer, the amounts added to each counter, and the
error it returns. -/
structure ConsumeOutcome where
  logs : Logs
  consumerCalls : List Logs
  spansHandledAdds : List Nat
  logsProducedAdds : List Nat
  err : Option String

/-- Go `ConsumeTraces` (connector.go 119-164). -/
def ConsumeTraces (c : SpanEventConnector) (td : Traces) : ConsumeOutcome :=
  let st := ConsumeTraces.traverse c td
  if st.logs.length > 0 then
    { logs := st.logs, consumerCalls := [st.logs], spansHandledAdds := [],
      logsProducedAdds := [], err := c.consumer st.logs }
  else
    { logs := st.logs
      consumerCalls := []
      spansHandledAdds :=
        if c.spansHandledCounter && decide (st.numSpansHandled > 0) then [st.numSpansHandled]
        else []
      logsProducedAdds :=
        if c.logsProducedCounter && decide (st.numLogsProduced > 0) then [st.numLogsProduced]
        else []
      err := none }

/-! ## Configuration validation (config.go) -/

/-- How a Go call ends: it returns a nil error, returns an error, or panics. -/
inductive Outcome where
  | ok : Outcome
  | error (msg : String) : Outcome
  | panic : Outcome

/-- Sequencing with early return: the next step runs only after a nil error. -/
def Outcome.andThen : Outcome → (Unit → Outcome) → Outcome
  | Outcome.ok, next => next ()
  | r, _ => r

/-- The keys of the map `allowed` (config.go 121-126). -/
def allowed : List String := ["EventName", "SpanName", "EventAttributes", "SpanAttributes"]

/-- The check made on a field node and on a variable node (config.go 138-152):
a non-empty identifier list whose first identifier is not allowed is an error.
The `fmt.Printf` of the debug line writes to standard output and is left out. -/
def walkNodes.checkIdent : List String → Outcome
  | [] => Outcome.ok
  | field :: _ =>
    if field ∈ allowed then Outcome.ok
    else Outcome.error ("invalid field in log_body_template: ." ++ field ++ " is not allowed")

mutual
/-- The closure `walkNodes` of `Validate` (config.go 131-207) on a non-nil
interface value.  Node types without a case fall through the type switch and
return nil. -/
def walkNodes : Node → Outcome
  | Node.Field ident => walkNodes.checkIdent ident
  | Node.Variable ident => walkNodes.checkIdent ident
  | Node.List nodes => walkNodes.each nodes
  | Node.Action pipe => walkNodes pipe
  | Node.Pipe _ _ cmds => walkNodes.each cmds
  | Node.Command args => walkNodes.each args
  | Node.If pipe list elseList =>
    (walkNodes pipe).andThen fun _ => (walkNodes list).andThen fun _ => walkNodes.elseList elseList
  | Node.Range pipe list elseList =>
    (walkNodes pipe).andThen fun _ => (walkNodes list).andThen fun _ => walkNodes.elseList elseList
  | Node.With pipe list elseList =>
    (walkNodes pipe).andThen fun _ => (walkNodes list).andThen fun _ => walkNodes.elseList elseList
  | Node.Text _ => Outcome.ok
  | Node.Comment _ => Outcome.ok
  | Node.Identifier _ => Outcome.ok
  | Node.Dot => Outcome.ok
  | Node.Nil => Outcome.ok
  | Node.Chain _ _ => Outcome.ok
  | Node.Bool _ => Outcome.ok
  | Node.Number _ => Outcome.ok
  | Node.String _ _ => Outcome.ok
  | Node.Break => Outcome.ok
  | Node.Continue => Outcome.ok
  | Node.Template _ _ => Outcome.ok
/-- The loops `for _, child := range ...` of `walkNodes`: the first error is
returned. -/
def walkNodes.each : List Node → Outcome
  | [] => Outcome.ok
  | child :: rest => (walkNodes child).andThen fun _ => walkNodes.each rest
/-- The call `walkNodes(node.ElseList)`.  The argument has static type
`*ListNode`, so a nil else list reaches the closure as a non-nil interface
holding a nil pointer: the test `n == nil` fails, the case `*parse.ListNode`
is taken and `node.Nodes` dereferences nil. -/
def walkNodes.elseList : Option Node → Outcome
  | none => Outcome.panic
  | some list => walkNodes list
end

/-- The library calls of `Validate`: creation of the two OTTL parsers (an
error, or the parser through the error of its `ParseCondition`), parsing of
the log body template, and the `%q` formatting of a condition. -/
structure ValidateEnv where
  NewSpanParser : Except String (String → Option String)
  NewEventParser : Except String (String → Option String)
  ParseTemplate : String → Except String Template
  quote : String → String

/-- The value `dummy` on which `Validate` executes the template. -/
def Validate.dummy : TemplateData :=
  { EventName := "event", SpanName := "span", EventAttributes := [("key", "value")],
    SpanAttributes := [("key", "value")] }

/-- The slice `validLevels` (config.go 55). -/
def validLevels : List String := ["Trace", "Debug", "Info", "Warn", "Error", "Fatal"]

/-- The log level check of `Validate` (config.go 54-66). -/
def Validate.logLevel (cfg : Config) : Outcome :=
  if cfg.LogLevel ≠ "" then
    let found := validLevels.any fun level => decide (cfg.LogLevel = level)
    if !found then
      Outcome.error ("invalid log_level: " ++ cfg.LogLevel ++
        ", must be one of [Trace Debug Info Warn Error Fatal]")
    else Outcome.ok
  else Outcome.ok

/-- The loops over conditions (config.go 77-81 and 90-94): the first condition
that fails to parse is an error. -/
def Validate.conditions (parseCondition : String → Option String) (what : String)
    (quote : String → String) : List String → Outcome
  | [] => Outcome.ok
  | cond :: rest =>
    match parseCondition cond with
    | some err => Outcome.error (what ++ quote cond ++ ": " ++ err)
    | none => Validate.conditions parseCondition what quote rest

/-- Validation of the span conditions (config.go 72-82). -/
def Validate.spanConditions (env : ValidateEnv) (cfg : Config) : Outcome :=
  if cfg.SpanConditions.length > 0 then
    match env.NewSpanParser with
    | Except.error err => Outcome.error ("failed to create OTTL span parser: " ++ err)
    | Except.ok parseCondition =>
      Validate.conditions parseCondition "invalid span_condition OTTL: " env.quote
        cfg.SpanConditions
  else Outcome.ok

/-- Validation of the event conditions (config.go 85-95). -/
def Validate.eventConditions (env : ValidateEnv) (cfg : Config) : Outcome :=
  if cfg.EventConditions.length > 0 then
    match env.NewEventParser with
    | Except.error err => Outcome.error ("failed to create OTTL event parser: " ++ err)
    | Except.ok parseCondition =>
      Validate.conditions parseCondition "invalid event_condition OTTL: " env.quote
        cfg.EventConditions
  else Outcome.ok

/-- The loop over `tmpl.Templates()` (config.go 127-211): nil entries are
skipped, each root is walked, the first error is returned. -/
def Validate.walkTrees : List (Option Node) → Outcome
  | [] => Outcome.ok
  | none :: rest => Validate.walkTrees rest
  | some root :: rest => (walkNodes root).andThen fun _ => Validate.walkTrees rest

/-- Validation of the log body template (config.go 98-212): parse, execute on
the dummy value, then walk the trees. -/
def Validate.logBodyTemplate (env : ValidateEnv) (cfg : Config) : Outcome :=
  if cfg.LogBodyTemplate ≠ "" then
    match env.ParseTemplate cfg.LogBodyTemplate with
    | Except.error err => Outcome.error ("invalid log_body_template: " ++ err)
    | Except.ok tmpl =>
      match (tmpl.Execute Validate.dummy).2 with
      | some err => Outcome.error ("invalid log_body_template (execution): " ++ err)
      | none => Validate.walkTrees tmpl.Templates
  else Outcome.ok

/-- Go method `Config.Validate` (config.go 49-215). -/
def Validate (env : ValidateEnv) (cfg : Config) : Outcome :=
  if cfg.SpanConditions.length = 0 ∧ cfg.EventConditions.length = 0 then
    Outcome.error "at least one span condition or event condition must be specified"
  else
    (Validate.logLevel cfg).andThen fun _ =>
    (Validate.spanConditions env cfg).andThen fun _ =>
    (Validate.eventConditions env cfg).andThen fun _ =>
    Validate.logBodyTemplate env cfg

/-! ## Specification side of the traversal -/

/-- A span event together with the span, scope entry and resource entry of the
batch that contain it. -/
structure MatchedPair where
  resourceSpans : ResourceSpans
  scopeSpans : ScopeSpans
  span : Span
  event : SpanEvent

/-- The (span, event) pairs of a batch whose span matches the span predicates
and whose event matches the event predicates, in the order resource, scope,
span, event of the input.  This follows the wording of the specification, not
the loops of `ConsumeTraces`. -/
def matchedPairs (c : SpanEventConnector) (td : Traces) : List MatchedPair :=
  td.flatMap fun rs =>
    rs.ScopeSpans.flatMap fun ss =>
      ss.Spans.flatMap fun span =>
        if matchesSpanConditionsWithContext c span rs.Resource ss.Scope ss rs then
          (span.Events.filter fun ev =>
            matchesEventConditionsWithContext c ev span rs.Resource ss.Scope ss rs).map
            fun ev => { resourceSpans := rs, scopeSpans := ss, span := span, event := ev }
        else []

/-- The traversal of a batch `pre ++ rs :: post` in which the step of one span
of `rs` is left out: `rs` has scope entries `ssPre ++ ss :: ssPost`, `ss` has
spans `spPre ++ span :: spPost`, and every other span is processed as in
`ConsumeTraces`, in the same order and in its own context. -/
def ConsumeTraces.traverseSkipping (c : SpanEventConnector) (pre post : List ResourceSpans)
    (rs : ResourceSpans) (ssPre ssPost : List ScopeSpans) (ss : ScopeSpans)
    (spPre spPost : List Span) : LoopState :=
  let st : LoopState := { logs := [], numSpansHandled := 0, numLogsProduced := 0 }
  let st := pre.foldl (ConsumeTraces.resourceStep c) st
  let st := ssPre.foldl (ConsumeTraces.scopeStep c rs.Resource rs) st
  let st := spPre.foldl (ConsumeTraces.spanStep c rs.Resource ss.Scope ss rs) st
  let st := spPost.foldl (ConsumeTraces.spanStep c rs.Resource ss.Scope ss rs) st
  let st := ssPost.foldl (ConsumeTraces.scopeStep c rs.Resource rs) st
  post.foldl (ConsumeTraces.resourceStep c) st

/-! ## Sample data -/

/-- A statement whose execution fails. -/
def Sample.failing (K : Type) : Statement K :=
  { Execute := fun _ => { result := GoAny.nil, ran := false, err := some "type mismatch" } }

/-- A statement that yields the boolean true. -/
def Sample.yieldsTrue (K : Type) : Statement K :=
  { Execute := fun _ => { result := GoAny.bool true, ran := true, err := none } }

/-- A statement that yields the boolean false. -/
def Sample.yieldsFalse (K : Type) : Statement K :=
  { Execute := fun _ => { result := GoAny.bool false, ran := true, err := none } }

/-- A statement that yields a value that is not a boolean. -/
def Sample.yieldsOther (K : Type) : Statement K :=
  { Execute := fun _ => { result := GoAny.other "string", ran := true, err := none } }

/-- An event with a string, a boolean and a nested attribute. -/
def Sample.event : SpanEvent :=
  { Timestamp := 1700000000000000123
    Name := "exception"
    Attributes :=
      [("exception.type", Value.str "ConnectionError"), ("exception.escaped", Value.bool false),
        ("frames", Value.slice [Value.int 3, Value.map [("file", Value.str "cart.py")]])]
    DroppedAttributesCount := 0 }

/-- A client span with one event. -/
def Sample.span : Span :=
  { TraceID := 81985529216486895, SpanID := 4660, ParentSpanID := 0, Name := "GET /api/cart",
    Kind := 3, StartTimestamp := 1700000000000000000, EndTimestamp := 1700000000000009999,
    Attributes := [("http.status_code", Value.int 503), ("retry", Value.bool true)],
    Events := [Sample.event] }

/-- A second span, with the same event. -/
def Sample.otherSpan : Span := { Sample.span with SpanID := 4661, Name := "GET /api/products" }

/-- The scope entry holding the two sample spans. -/
def Sample.scopeSpans : ScopeSpans :=
  { Scope := { Name := "requests", Version := "1.0", Attributes := [], DroppedAttributesCount := 0 }
    Spans := [Sample.span, Sample.otherSpan]
    SchemaUrl := "" }

/-- The resource entry holding the sample scope entry. -/
def Sample.resourceSpans : ResourceSpans :=
  { Resource := { Attributes := [("service.name", Value.str "loadgenerator")],
                  DroppedAttributesCount := 0 }
    ScopeSpans := [Sample.scopeSpans]
    SchemaUrl := "" }

/-- A connector in which a failing statement comes before one that yields
true, for spans and for events; both include flags are on. -/
def Sample.connector : SpanEventConnector :=
  { config :=
      { SpanConditions := ["a", "b"], EventConditions := ["c", "d", "e"],
        IncludeSpanAttributes := true, IncludeEventAttributes := true, LogLevel := "Error",
        LogBodyTemplate := "" }
    consumer := fun _ => none
    bodyTemplate := none
    spanOttl := [Sample.failing _, Sample.yieldsTrue _]
    eventOttl := [Sample.yieldsOther _, Sample.failing _, Sample.yieldsTrue _]
    spansHandledCounter := true
    logsProducedCounter := true
    render := fun _ => "" }

/-- A connector whose only span statement yields false and whose event
predicate list is empty. -/
def Sample.rejecting : SpanEventConnector :=
  { Sample.connector with spanOttl := [Sample.yieldsFalse _], eventOttl := [] }

/-- A span that carries an attribute named `name`. -/
def Sample.collidingSpan : Span := { Sample.span with Attributes := [("name", Value.int 7)] }

/-! ## Specification side of template validation -/

mutual
/-- The identifier lists of all field nodes of a tree, at any depth and under
any kind of node, chain nodes and template invocations included. -/
def fieldRefs : Node → List (List String)
  | Node.Field ident => [ident]
  | Node.List nodes => fieldRefs.each nodes
  | Node.Action pipe => fieldRefs pipe
  | Node.Pipe _ _ cmds => fieldRefs.each cmds
  | Node.Command args => fieldRefs.each args
  | Node.Chain node _ => fieldRefs node
  | Node.If pipe list elseList =>
    fieldRefs pipe ++ fieldRefs list ++ fieldRefs.optional elseList
  | Node.Range pipe list elseList =>
    fieldRefs pipe ++ fieldRefs list ++ fieldRefs.optional elseList
  | Node.With pipe list elseList =>
    fieldRefs pipe ++ fieldRefs list ++ fieldRefs.optional elseList
  | Node.Template _ pipe => fieldRefs.optional pipe
  | Node.Text _ => []
  | Node.Comment _ => []
  | Node.Identifier _ => []
  | Node.Variable _ => []
  | Node.Dot => []
  | Node.Nil => []
  | Node.Bool _ => []
  | Node.Number _ => []
  | Node.String _ _ => []
  | Node.Break => []
  | Node.Continue => []
/-- The field references of a list of nodes. -/
def fieldRefs.each : List Node → List (List String)
  | [] => []
  | child :: rest => fieldRefs child ++ fieldRefs.each rest
/-- The field references under a pointer that may be nil. -/
def fieldRefs.optional : Option Node → List (List String)
  | none => []
  | some node => fieldRefs node
end

/-- The template text `{{if false}}{{(.BadField).Foo}}{{else}}ok{{end}}`. -/
def Sample.chainText : String :=
  "\x7b\x7bif false\x7d\x7d\x7b\x7b(.BadField).Foo\x7d\x7d\x7b\x7belse\x7d\x7dok\x7b\x7bend\x7d\x7d"

/-- The tree that `text/template/parse` builds for `Sample.chainText`: an `if`
on the constant false, whose body is the action `(.BadField).Foo` (a chain
node over a parenthesised pipeline) and whose else list is the text `ok`. -/
def Sample.chainTree : Node :=
  Node.List
    [Node.If (Node.Pipe false [] [Node.Command [Node.Bool false]])
      (Node.List
        [Node.Action
          (Node.Pipe false []
            [Node.Command
              [Node.Chain (Node.Pipe false [] [Node.Command [Node.Field ["BadField"]]])
                ["Foo"]]])])
      (some (Node.List [Node.Text "ok"]))]

/-- The parsed template for `Sample.chainText`.  Executing it takes the else
branch, since the condition is the constant false: it writes `ok` and returns
no error, on any data. -/
def Sample.chainTemplate : Template :=
  { Templates := [some Sample.chainTree], Execute := fun _ => ("ok", none) }

/-- Library behaviour for the sample configurations: both OTTL parsers are
created and accept every condition; the only template text that is parsed is
`Sample.chainText`. -/
def Sample.env : ValidateEnv :=
  { NewSpanParser := Except.ok fun _ => none
    NewEventParser := Except.ok fun _ => none
    ParseTemplate := fun text =>
      if text = Sample.chainText then Except.ok Sample.chainTemplate
      else Except.error "template: text outside the sample"
    quote := fun cond => "\"" ++ cond ++ "\"" }

/-- A configuration whose template is `Sample.chainText`. -/
def Sample.chainConfig : Config :=
  { SpanConditions := ["IsMatch(name, \"test-span\")"], EventConditions := [],
    IncludeSpanAttributes := true, IncludeEventAttributes := true, LogLevel := "Error",
    LogBodyTemplate := Sample.chainText }

/-- A configuration with an explicitly empty log level and no template. -/
def Sample.emptyLevelConfig : Config :=
  { SpanConditions := ["IsMatch(name, \"test-span\")"], EventConditions := [],
    IncludeSpanAttributes := true, IncludeEventAttributes := true, LogLevel := "",
    LogBodyTemplate := "" }

/-- The configuration of the test case `invalid_log_level`. -/
def Sample.invalidLevelConfig : Config :=
  { SpanConditions := ["IsMatch(name, \"test-span\")"], EventConditions := [],
    IncludeSpanAttributes := true, IncludeEventAttributes := true, LogLevel := "InvalidLevel",
    LogBodyTemplate := "Test template" }

/-! ## Template data as seen by a template -/

/-- Lookup `m[k]` on a Go `map[string]string` kept as an association list. -/
def StringMap.get : List (String × String) → String → Option String
  | [], _ => none
  | (k0, v0) :: rest, k => if k0 = k then some v0 else StringMap.get rest k

/-! ## Defaults (config.go 219-243, factory.go 21-30) -/

/-- The state of one key in a configuration source: absent, present with a
null value (as in the YAML line `log_level:`), or present with a value. -/
inductive ConfKey (α : Type) where
  | unset : ConfKey α
  | null : ConfKey α
  | value (v : α) : ConfKey α

/-- Whether the key exists in the source: a key with a null value does. -/
def ConfKey.isSet {α : Type} : ConfKey α → Bool
  | ConfKey.unset => false
  | ConfKey.null => true
  | ConfKey.value _ => true

/-- Decoding of one key into a field that currently holds `current`: a
supplied value overwrites the field; an absent key and a null value leave it. -/
def ConfKey.decode {α : Type} : ConfKey α → α → α
  | ConfKey.unset, current => current
  | ConfKey.null, current => current
  | ConfKey.value v, _ => v

/-- A non-nil `*confmap.Conf` as `Config.Unmarshal` uses it: the state of each
key of the connector in the source, and the error of decoding the source into
the struct (a value of the wrong type), if any.  Keys of the source that the
struct does not have are ignored. -/
structure Conf where
  span_conditions : ConfKey (List String)
  event_conditions : ConfKey (List String)
  include_span_attributes : ConfKey Bool
  include_event_attributes : ConfKey Bool
  log_level : ConfKey String
  log_body_template : ConfKey String
  decodeError : Option String

/-- Go method `Conf.IsSet` on the keys of the connector: true when the key
exists in the source, with a value or with null. -/
def Conf.IsSet (conf : Conf) (key : String) : Bool :=
  match key with
  | "span_conditions" => conf.span_conditions.isSet
  | "event_conditions" => conf.event_conditions.isSet
  | "include_span_attributes" => conf.include_span_attributes.isSet
  | "include_event_attributes" => conf.include_event_attributes.isSet
  | "log_level" => conf.log_level.isSet
  | "log_body_template" => conf.log_body_template.isSet
  | _ => false

/-- Go method `Conf.Unmarshal(c, confmap.WithIgnoreUnused())`: a decoding error
is returned; otherwise each field whose key has a value receives that value,
and the field of a key that is absent or null is left as the receiver had it. -/
def Conf.Unmarshal (conf : Conf) (c : Config) : Except String Config :=
  match conf.decodeError with
  | some err => Except.error err
  | none =>
    Except.ok
      { SpanConditions := conf.span_conditions.decode c.SpanConditions
        EventConditions := conf.event_conditions.decode c.EventConditions
        IncludeSpanAttributes := conf.include_span_attributes.decode c.IncludeSpanAttributes
        IncludeEventAttributes := conf.include_event_attributes.decode c.IncludeEventAttributes
        LogLevel := conf.log_level.decode c.LogLevel
        LogBodyTemplate := conf.log_body_template.decode c.LogBodyTemplate }

/-- Go method `Config.Unmarshal` (config.go 220-243) on the receiver `c`; the
argument is `none` for a nil pointer.  The result is the error returned, or the
receiver as the call leaves it. -/
def Config.Unmarshal (c : Config) (componentParser : Option Conf) : Except String Config :=
  match componentParser with
  | none => Except.ok c
  | some conf =>
    match Conf.Unmarshal conf c with
    | Except.error err => Except.error err
    | Except.ok c =>
      let c :=
        if !Conf.IsSet conf "include_span_attributes" then { c with IncludeSpanAttributes := true }
        else c
      let c :=
        if !Conf.IsSet conf "include_event_attributes" then
          { c with IncludeEventAttributes := true }
        else c
      let c := if !Conf.IsSet conf "log_level" then { c with LogLevel := "Info" } else c
      let c :=
        if !Conf.IsSet conf "log_body_template" then
          { c with LogBodyTemplate := "Span Event: \x7b\x7b.EventName\x7d\x7d" }
        else c
      Except.ok c

/-- Go function `createDefaultConfig` (factory.go 21-30). -/
def createDefaultConfig : Config :=
  { SpanConditions := [], EventConditions := [], IncludeSpanAttributes := true,
    IncludeEventAttributes := true, LogLevel := "Info",
    LogBodyTemplate := "Span Event: \x7b\x7b.EventName\x7d\x7d" }

/-! ## Templates made of text and placeholders -/

/-- An action that is a direct reference to one allowed placeholder, such as
`{{.EventName}}`: a pipeline of one command whose only argument is a field
node with that single identifier. -/
def isPlaceholderAction : Node → Bool
  | Node.Action (Node.Pipe _ [] [Node.Command [Node.Field [field]]]) => decide (field ∈ allowed)
  | _ => false

/-- A text node or a direct reference to an allowed placeholder. -/
def isTextOrPlaceholder : Node → Bool
  | Node.Text _ => true
  | node => isPlaceholderAction node

/-- The root of a template that consists only of literal text and direct
references to the allowed placeholders. -/
def isDirectTemplate : Node → Bool
  | Node.List nodes => nodes.all isTextOrPlaceholder
  | _ => false

/-! ## Further sample data -/

/-- The tree of the template `Test template`. -/
def Sample.testTemplateTree : Node := Node.List [Node.Text "Test template"]

/-- The tree of `Connection Error: {{.EventName}} in {{.SpanName}}`. -/
def Sample.basicTemplateTree : Node :=
  Node.List
    [Node.Text "Connection Error: ",
      Node.Action (Node.Pipe false [] [Node.Command [Node.Field ["EventName"]]]),
      Node.Text " in ",
      Node.Action (Node.Pipe false [] [Node.Command [Node.Field ["SpanName"]]])]

/-- Library behaviour for the two test configurations: both parsers accept
every condition, and the two template texts of the tests are parsed into
their trees and executed by writing text and field values in order. -/
def Sample.testEnv : ValidateEnv :=
  { NewSpanParser := Except.ok fun _ => none
    NewEventParser := Except.ok fun _ => none
    ParseTemplate := fun text =>
      if text = "Test template" then
        Except.ok { Templates := [some Sample.testTemplateTree],
                    Execute := fun _ => ("Test template", none) }
      else if text = "Connection Error: \x7b\x7b.EventName\x7d\x7d in \x7b\x7b.SpanName\x7d\x7d" then
        Except.ok
          { Templates := [some Sample.basicTemplateTree]
            Execute := fun data =>
              ("Connection Error: " ++ data.EventName ++ " in " ++ data.SpanName, none) }
      else Except.error "template: text outside the sample"
    quote := fun cond => "\"" ++ cond ++ "\"" }

/-- The configuration of the test case `valid_config`. -/
def Sample.validConfig : Config :=
  { SpanConditions := ["IsMatch(name, \"test-span\")"], EventConditions := [],
    IncludeSpanAttributes := true, IncludeEventAttributes := true, LogLevel := "Error",
    LogBodyTemplate := "Test template" }

/-- The configuration of `TestConfigBasic`. -/
def Sample.basicConfig : Config :=
  { Sample.validConfig with
    LogBodyTemplate := "Connection Error: \x7b\x7b.EventName\x7d\x7d in \x7b\x7b.SpanName\x7d\x7d" }

/-- The parsed template `Error in {{.SpanName}}: {{.EventName}}`; executing it
writes the text and the two field values in order. -/
def Sample.scenarioTemplate : Template :=
  { Templates :=
      [some (Node.List
        [Node.Text "Error in ",
          Node.Action (Node.Pipe false [] [Node.Command [Node.Field ["SpanName"]]]),
          Node.Text ": ",
          Node.Action (Node.Pipe false [] [Node.Command [Node.Field ["EventName"]]])])]
    Execute := fun data => ("Error in " ++ data.SpanName ++ ": " ++ data.EventName, none) }

/-- The event of the scenario. -/
def Sample.scenarioEvent : SpanEvent :=
  { Timestamp := 1700000000000000123, Name := "exception",
    Attributes := [("exception.type", Value.str "ConnectionError")],
    DroppedAttributesCount := 0 }

/-- The span of the scenario. -/
def Sample.scenarioSpan : Span :=
  { TraceID := 81985529216486895, SpanID := 4660, ParentSpanID := 0, Name := "GET /api/cart",
    Kind := 3, StartTimestamp := 1700000000000000000, EndTimestamp := 1700000000000009999,
    Attributes := [], Events := [Sample.scenarioEvent] }

/-- The scope entry of the scenario. -/
def Sample.scenarioScopeSpans : ScopeSpans :=
  { Scope := { Name := "requests", Version := "1.0", Attributes := [], DroppedAttributesCount := 0 }
    Spans := [Sample.scenarioSpan]
    SchemaUrl := "" }

/-- The resource entry of the scenario. -/
def Sample.scenarioResourceSpans : ResourceSpans :=
  { Resource := { Attributes := [("service.name", Value.str "loadgenerator")],
                  DroppedAttributesCount := 0 }
    ScopeSpans := [Sample.scenarioScopeSpans]
    SchemaUrl := "" }

/-- The connector of the scenario: log level Error, the scenario template, one
span statement and one event statement that yield true. -/
def Sample.scenarioConnector : SpanEventConnector :=
  { config :=
      { SpanConditions := ["isMatch(span.name, \"GET\")"]
        EventConditions := ["isMatch(name, \"exception\")"]
        IncludeSpanAttributes := true, IncludeEventAttributes := true, LogLevel := "Error"
        LogBodyTemplate := "Error in \x7b\x7b.SpanName\x7d\x7d: \x7b\x7b.EventName\x7d\x7d" }
    consumer := fun _ => none
    bodyTemplate := some Sample.scenarioTemplate
    spanOttl := [Sample.yieldsTrue _]
    eventOttl := [Sample.yieldsTrue _]
    spansHandledCounter := true
    logsProducedCounter := true
    render := fun _ => "" }

/-- The sample connector with a consumer that fails and without counters. -/
def Sample.otherSink : SpanEventConnector :=
  { Sample.connector with
    consumer := fun _ => some "downstream unavailable"
    spansHandledCounter := false
    logsProducedCounter := false }

/-- A receiver that does not hold the default values. -/
def Sample.zeroConfig : Config :=
  { SpanConditions := [], EventConditions := [], IncludeSpanAttributes := false,
    IncludeEventAttributes := false, LogLevel := "", LogBodyTemplate := "" }

/-- A receiver with values of its own. -/
def Sample.fatalConfig : Config :=
  { SpanConditions := [], EventConditions := [], IncludeSpanAttributes := false,
    IncludeEventAttributes := false, LogLevel := "Fatal", LogBodyTemplate := "custom body" }

/-- A source that sets the span conditions, an explicit `false` and an
explicit empty log level, holds the template key with a null value, and does
not hold the other keys. -/
def Sample.conf : Conf :=
  { span_conditions := ConfKey.value ["IsMatch(name, \"test-span\")"]
    event_conditions := ConfKey.unset
    include_span_attributes := ConfKey.value false
    include_event_attributes := ConfKey.unset
    log_level := ConfKey.value ""
    log_body_template := ConfKey.null
    decodeError := none }

/-- A source that holds the keys `log_level` and `include_span_attributes`
with a null value and sets one condition. -/
def Sample.nullKeys : Conf :=
  { span_conditions := ConfKey.value ["IsMatch(name, \"test-span\")"]
    event_conditions := ConfKey.unset
    include_span_attributes := ConfKey.null
    include_event_attributes := ConfKey.unset
    log_level := ConfKey.null
    log_body_template := ConfKey.unset
    decodeError := none }

/-! ## Specification side of the walk -/

mutual
/-- The identifier lists of the field nodes and variable nodes that are
reachable from a node through list children, action pipelines, pipeline
commands, command arguments and the pipe, body and else list of `if`, `range`
and `with` nodes. -/
def walkedRefs : Node → List (List String)
  | Node.Field ident => [ident]
  | Node.Variable ident => [ident]
  | Node.List nodes => walkedRefs.each nodes
  | Node.Action pipe => walkedRefs pipe
  | Node.Pipe _ _ cmds => walkedRefs.each cmds
  | Node.Command args => walkedRefs.each args
  | Node.If pipe list elseList =>
    walkedRefs pipe ++ (walkedRefs list ++ walkedRefs.optional elseList)
  | Node.Range pipe list elseList =>
    walkedRefs pipe ++ (walkedRefs list ++ walkedRefs.optional elseList)
  | Node.With pipe list elseList =>
    walkedRefs pipe ++ (walkedRefs list ++ walkedRefs.optional elseList)
  | Node.Text _ => []
  | Node.Comment _ => []
  | Node.Identifier _ => []
  | Node.Dot => []
  | Node.Nil => []
  | Node.Chain _ _ => []
  | Node.Bool _ => []
  | Node.Number _ => []
  | Node.String _ _ => []
  | Node.Break => []
  | Node.Continue => []
  | Node.Template _ _ => []
/-- The reachable references of a list of nodes. -/
def walkedRefs.each : List Node → List (List String)
  | [] => []
  | child :: rest => walkedRefs child ++ walkedRefs.each rest
/-- The reachable references under an else list that may be absent. -/
def walkedRefs.optional : Option Node → List (List String)
  | none => []
  | some list => walkedRefs list
end

/-- An identifier list that is non-empty and whose first identifier is not one
of the four allowed names. -/
def isDisallowedRef : List String → Bool
  | [] => false
  | field :: _ => !decide (field ∈ allowed)

mutual
/-- Whether every `if`, `range` and `with` node reachable as in `walkedRefs` has
an else list. -/
def everyBranchHasElse : Node → Bool
  | Node.List nodes => everyBranchHasElse.each nodes
  | Node.Action pipe => everyBranchHasElse pipe
  | Node.Pipe _ _ cmds => everyBranchHasElse.each cmds
  | Node.Command args => everyBranchHasElse.each args
  | Node.If pipe list elseList =>
    everyBranchHasElse pipe && (everyBranchHasElse list && everyBranchHasElse.optional elseList)
  | Node.Range pipe list elseList =>
    everyBranchHasElse pipe && (everyBranchHasElse list && everyBranchHasElse.optional elseList)
  | Node.With pipe list elseList =>
    everyBranchHasElse pipe && (everyBranchHasElse list && everyBranchHasElse.optional elseList)
  | Node.Field _ => true
  | Node.Variable _ => true
  | Node.Text _ => true
  | Node.Comment _ => true
  | Node.Identifier _ => true
  | Node.Dot => true
  | Node.Nil => true
  | Node.Chain _ _ => true
  | Node.Bool _ => true
  | Node.Number _ => true
  | Node.String _ _ => true
  | Node.Break => true
  | Node.Continue => true
  | Node.Template _ _ => true
/-- The same for a list of nodes. -/
def everyBranchHasElse.each : List Node → Bool
  | [] => true
  | child :: rest => everyBranchHasElse child && everyBranchHasElse.each rest
/-- An absent else list is the one case that fails. -/
def everyBranchHasElse.optional : Option Node → Bool
  | none => false
  | some list => everyBranchHasElse list
end

/-- The template text `{{if .EventName}}x{{end}}{{if false}}{{.BadField}}{{end}}`. -/
def Sample.elselessText : String :=
  "\x7b\x7bif .EventName\x7d\x7dx\x7b\x7bend\x7d\x7d\x7b\x7bif false\x7d\x7d\x7b\x7b.BadField\x7d\x7d\x7b\x7bend\x7d\x7d"

/-- The tree that `text/template/parse` builds for `Sample.elselessText`: two
`if` nodes without else branch, the second one holding the action
`.BadField` in its body. -/
def Sample.elselessTree : Node :=
  Node.List
    [Node.If (Node.Pipe false [] [Node.Command [Node.Field ["EventName"]]])
        (Node.List [Node.Text "x"]) none,
      Node.If (Node.Pipe false [] [Node.Command [Node.Bool false]])
        (Node.List [Node.Action (Node.Pipe false [] [Node.Command [Node.Field ["BadField"]]])])
        none]

/-- The parsed template for `Sample.elselessText`.  Executing it on the dummy
value writes `x` for the first `if`, whose condition is the non-empty event
name, and skips the body of the second; it returns no error. -/
def Sample.elselessTemplate : Template :=
  { Templates := [some Sample.elselessTree], Execute := fun _ => ("x", none) }

/-- Library behaviour for `Sample.elselessText`: both parsers accept every
condition and that text is the only one parsed. -/
def Sample.elselessEnv : ValidateEnv :=
  { NewSpanParser := Except.ok fun _ => none
    NewEventParser := Except.ok fun _ => none
    ParseTemplate := fun text =>
      if text = Sample.elselessText then Except.ok Sample.elselessTemplate
      else Except.error "template: text outside the sample"
    quote := fun cond => "\"" ++ cond ++ "\"" }

/-- A configuration whose template is `Sample.elselessText`. -/
def Sample.elselessConfig : Config :=
  { SpanConditions := ["IsMatch(name, \"test-span\")"], EventConditions := [],
    IncludeSpanAttributes := true, IncludeEventAttributes := true, LogLevel := "Error",
    LogBodyTemplate := Sample.elselessText }

/-! ## Specification side of the counters -/

/-- The spans of a batch that pass the span conditions, in traversal order. -/
def matchedSpans (c : SpanEventConnector) (td : Traces) : List Span :=
  td.flatMap fun rs =>
    rs.ScopeSpans.flatMap fun ss =>
      ss.Spans.filter fun span =>
        matchesSpanConditionsWithContext c span rs.Resource ss.Scope ss rs

/-- The sample connector with an event statement that yields false: spans
match, no event does. -/
def Sample.noEventMatches : SpanEventConnector :=
  { Sample.connector with eventOttl := [Sample.yieldsFalse _] }

/-- The sample connector with both include flags off. -/
def Sample.baseOnly : SpanEventConnector :=
  { Sample.connector with
    config :=
      { Sample.connector.config with
        IncludeSpanAttributes := false, IncludeEventAttributes := false } }

/-- Agreement of an outcome of the walk with a list of reachable references:
an error comes with a disallowed reference in the list, a nil error means that
no reference of the list is disallowed, and when every branch has an else list
the outcome is not a panic. -/
def walkAgrees (o : Outcome) (refs : List (List String)) (hasElse : Bool) : Prop :=
  (∀ msg, o = Outcome.error msg → ∃ ident ∈ refs, isDisallowedRef ident = true) ∧
    (o = Outcome.ok → ∀ ident ∈ refs, isDisallowedRef ident = false) ∧
    (hasElse = true → o ≠ Outcome.panic)

/-- The sample connector with its span statements and no event statement, as
a configuration with span conditions only gives. -/
def Sample.spanOnly : SpanEventConnector := { Sample.connector with eventOttl := [] }

/-- The sample connector with its event statements and no span statement. -/
def Sample.eventOnly : SpanEventConnector := { Sample.connector with spanOttl := [] }

/-- A connector whose span statements fail, yield false and yield a value
that is not a boolean, and that has no event statement. -/
def Sample.noneYieldsTrue : SpanEventConnector :=
  { Sample.connector with
    spanOttl := [Sample.failing _, Sample.yieldsFalse _, Sample.yieldsOther _]
    eventOttl := [] }

/-! # Properties -/

/-! ## The predicate evaluator -/

theorem GoAny.assertBool_eq_true_iff (r : GoAny) :
    GoAny.assertBool r = true ↔ r = GoAny.bool true := by
  cases r with
  | nil => simp [GoAny.assertBool]
  | bool b => simp [GoAny.assertBool]
  | other d => simp [GoAny.assertBool]

/-- The statement loop returns true exactly when some statement of the list
executes without error and yields the boolean true. -/
theorem anyStatementTrue_iff {K : Type} (stmts : List (Statement K)) (ctx : K) :
    anyStatementTrue stmts ctx = true ↔
      ∃ stmt ∈ stmts, (stmt.Execute ctx).err = none ∧
        (stmt.Execute ctx).result = GoAny.bool true := by
  induction stmts with
  | nil => simp [anyStatementTrue]
  | cons stmt rest ih =>
    simp only [anyStatementTrue, List.mem_cons, exists_eq_or_imp]
    cases herr : (stmt.Execute ctx).err with
    | some e => simp [ih]
    | none =>
      by_cases hb : GoAny.assertBool (stmt.Execute ctx).result = true
      · simp [hb, (GoAny.assertBool_eq_true_iff _).1 hb, GoAny.assertBool]
      · have hne : ¬ (stmt.Execute ctx).result = GoAny.bool true := fun h =>
          hb ((GoAny.assertBool_eq_true_iff _).2 h)
        simp [hb, hne, ih]

/-- C1: with an empty compiled predicate list the evaluator returns true, for
the span form and for the event form, whatever the context holds. -/
theorem empty_predicate_list_matches (c : SpanEventConnector) (event : SpanEvent) (span : Span)
    (resource : Resource) (scope : InstrumentationScope) (scopeSpans : ScopeSpans)
    (resourceSpans : ResourceSpans) :
    matchesSpanConditionsWithContext { c with spanOttl := [] } span resource scope scopeSpans
        resourceSpans = true ∧
      matchesEventConditionsWithContext { c with eventOttl := [] } event span resource scope
        scopeSpans resourceSpans = true := by
  simp [matchesSpanConditionsWithContext, matchesEventConditionsWithContext]

/-- C2: for the span evaluator whenever the span predicate list is non-empty,
and for the event evaluator whenever the event predicate list is non-empty
(whatever the other list is), the evaluator returns true if and only if some
predicate of the list executes without error and yields the boolean true; a
predicate that fails, yields false or yields a non-boolean is passed over and
the evaluation goes on with the next one, so the result is false only when no
predicate of the list yields true. -/
theorem nonempty_predicate_list_matches_iff (c : SpanEventConnector) (event : SpanEvent)
    (span : Span) (resource : Resource) (scope : InstrumentationScope) (scopeSpans : ScopeSpans)
    (resourceSpans : ResourceSpans) :
    (c.spanOttl ≠ [] →
        (matchesSpanConditionsWithContext c span resource scope scopeSpans resourceSpans = true ↔
          ∃ stmt ∈ c.spanOttl,
            (stmt.Execute ⟨span, scope, resource, scopeSpans, resourceSpans⟩).err = none ∧
            (stmt.Execute ⟨span, scope, resource, scopeSpans, resourceSpans⟩).result =
              GoAny.bool true)) ∧
      (c.eventOttl ≠ [] →
        (matchesEventConditionsWithContext c event span resource scope scopeSpans resourceSpans
            = true ↔
          ∃ stmt ∈ c.eventOttl,
            (stmt.Execute ⟨event, span, scope, resource, scopeSpans, resourceSpans⟩).err = none ∧
            (stmt.Execute ⟨event, span, scope, resource, scopeSpans, resourceSpans⟩).result =
              GoAny.bool true)) := by
  constructor
  · intro hs
    have hs0 : c.spanOttl.length ≠ 0 := fun h => hs (List.length_eq_zero.1 h)
    simp only [matchesSpanConditionsWithContext, if_neg hs0]
    exact anyStatementTrue_iff _ _
  · intro he
    have he0 : c.eventOttl.length ≠ 0 := fun h => he (List.length_eq_zero.1 h)
    simp only [matchesEventConditionsWithContext, if_neg he0]
    exact anyStatementTrue_iff _ _

/-- Witness of C2.  On a connector that has span statements and no event
statement, a failing statement followed by one that yields true gives true for
the span; on a connector that has event statements and no span statement, a
non-boolean, a failing statement and one that yields true give true for the
event; and a list in which no statement yields true gives false. -/
theorem nonempty_predicate_list_matches_iff_witness :
    matchesSpanConditionsWithContext Sample.spanOnly Sample.span
        Sample.resourceSpans.Resource Sample.scopeSpans.Scope Sample.scopeSpans
        Sample.resourceSpans = true ∧
      matchesEventConditionsWithContext Sample.eventOnly Sample.event Sample.span
        Sample.resourceSpans.Resource Sample.scopeSpans.Scope Sample.scopeSpans
        Sample.resourceSpans = true ∧
      ¬ matchesSpanConditionsWithContext Sample.noneYieldsTrue Sample.span
        Sample.resourceSpans.Resource Sample.scopeSpans.Scope Sample.scopeSpans
        Sample.resourceSpans = true :=
  ⟨((nonempty_predicate_list_matches_iff Sample.spanOnly Sample.event Sample.span
      Sample.resourceSpans.Resource Sample.scopeSpans.Scope Sample.scopeSpans
      Sample.resourceSpans).1 (by simp [Sample.spanOnly, Sample.connector])).2
      ⟨Sample.yieldsTrue _, by simp [Sample.spanOnly, Sample.connector], rfl, rfl⟩,
    ((nonempty_predicate_list_matches_iff Sample.eventOnly Sample.event Sample.span
      Sample.resourceSpans.Resource Sample.scopeSpans.Scope Sample.scopeSpans
      Sample.resourceSpans).2 (by simp [Sample.eventOnly, Sample.connector])).2
      ⟨Sample.yieldsTrue _, by simp [Sample.eventOnly, Sample.connector], rfl, rfl⟩,
    fun h => by
      obtain ⟨stmt, hmem, _, hres⟩ :=
        ((nonempty_predicate_list_matches_iff Sample.noneYieldsTrue Sample.event Sample.span
          Sample.resourceSpans.Resource Sample.scopeSpans.Scope Sample.scopeSpans
          Sample.resourceSpans).1 (by simp [Sample.noneYieldsTrue, Sample.connector])).1 h
      simp only [Sample.noneYieldsTrue, Sample.connector, List.mem_cons, List.mem_singleton,
        List.not_mem_nil, or_false] at hmem
      rcases hmem with h1 | h1 | h1 <;> subst h1 <;> cases hres⟩

/-! ## The traversal -/

theorem ConsumeTraces_logs (c : SpanEventConnector) (td : Traces) :
    (ConsumeTraces c td).logs = (ConsumeTraces.traverse c td).logs := by
  simp only [ConsumeTraces]
  by_cases h : (ConsumeTraces.traverse c td).logs.length > 0
  · rw [if_pos h]
  · rw [if_neg h]

theorem spanStep_of_not_match (c : SpanEventConnector) (resource : Resource)
    (scope : InstrumentationScope) (scopeSpans : ScopeSpans) (resourceSpans : ResourceSpans)
    (st : LoopState) (span : Span)
    (h : matchesSpanConditionsWithContext c span resource scope scopeSpans resourceSpans = false) :
    ConsumeTraces.spanStep c resource scope scopeSpans resourceSpans st span = st := by
  simp [ConsumeTraces.spanStep, h]

/-- C3: a span that does not match the span predicates leaves the state of the
traversal unchanged, and the batch accumulated by `ConsumeTraces` is the batch
accumulated from all the other spans alone, whatever events the span has and
whatever the event predicates are. -/
theorem unmatched_span_contributes_nothing (c : SpanEventConnector)
    (pre post : List ResourceSpans) (rs : ResourceSpans) (ssPre ssPost : List ScopeSpans)
    (ss : ScopeSpans) (spPre spPost : List Span) (span : Span)
    (hrs : rs.ScopeSpans = ssPre ++ ss :: ssPost) (hss : ss.Spans = spPre ++ span :: spPost)
    (hno : matchesSpanConditionsWithContext c span rs.Resource ss.Scope ss rs = false) :
    (∀ st, ConsumeTraces.spanStep c rs.Resource ss.Scope ss rs st span = st) ∧
      (ConsumeTraces c (pre ++ rs :: post)).logs =
        (ConsumeTraces.traverseSkipping c pre post rs ssPre ssPost ss spPre spPost).logs := by
  refine ⟨fun st => spanStep_of_not_match c _ _ _ _ st span hno, ?_⟩
  rw [ConsumeTraces_logs]
  simp only [ConsumeTraces.traverse, ConsumeTraces.traverseSkipping, List.foldl_append,
    List.foldl_cons]
  congr 2
  conv_lhs => rw [ConsumeTraces.resourceStep, hrs]
  simp only [List.foldl_append, List.foldl_cons]
  congr 1
  conv_lhs => rw [ConsumeTraces.scopeStep, hss]
  simp only [List.foldl_append, List.foldl_cons]
  rw [spanStep_of_not_match c _ _ _ _ _ span hno]

/-- Witness of C3: the first sample span is rejected by the span predicate, the
event predicate list is empty, and nothing is accumulated. -/
theorem unmatched_span_contributes_nothing_witness :
    (∀ st, ConsumeTraces.spanStep Sample.rejecting Sample.resourceSpans.Resource
        Sample.scopeSpans.Scope Sample.scopeSpans Sample.resourceSpans st Sample.span = st) ∧
      (ConsumeTraces Sample.rejecting ([] ++ Sample.resourceSpans :: [])).logs =
        (ConsumeTraces.traverseSkipping Sample.rejecting [] [] Sample.resourceSpans [] []
          Sample.scopeSpans [] [Sample.otherSpan]).logs :=
  unmatched_span_contributes_nothing Sample.rejecting [] [] Sample.resourceSpans [] []
    Sample.scopeSpans [] [Sample.otherSpan] Sample.span rfl rfl rfl

theorem createLogRecord_append (c : SpanEventConnector) (event : SpanEvent) (span : Span)
    (resource : Resource) (scope : InstrumentationScope) (logs : Logs) :
    createLogRecord c event span resource scope logs =
      logs ++ createLogRecord c event span resource scope [] := by
  simp [createLogRecord]

/-- A loop whose step appends `g x` to the batch appends the concatenation of
the `g x` over the list. -/
theorem foldl_logs_eq {α : Type} (step : LoopState → α → LoopState) (g : α → Logs)
    (h : ∀ st x, (step st x).logs = st.logs ++ g x) (l : List α) (st : LoopState) :
    (l.foldl step st).logs = st.logs ++ l.flatMap g := by
  induction l generalizing st with
  | nil => simp
  | cons x rest ih => simp [List.foldl_cons, ih, h, List.flatMap_cons, List.append_assoc]

/-- The entries that the events of one span add to the batch. -/
theorem spanStep_logs (c : SpanEventConnector) (resource : Resource)
    (scope : InstrumentationScope) (scopeSpans : ScopeSpans) (resourceSpans : ResourceSpans)
    (st : LoopState) (span : Span) :
    (ConsumeTraces.spanStep c resource scope scopeSpans resourceSpans st span).logs =
      st.logs ++
        (if matchesSpanConditionsWithContext c span resource scope scopeSpans resourceSpans then
          span.Events.flatMap fun ev =>
            if matchesEventConditionsWithContext c ev span resource scope scopeSpans
                resourceSpans then
              createLogRecord c ev span resource scope []
            else []
        else []) := by
  by_cases hm : matchesSpanConditionsWithContext c span resource scope scopeSpans resourceSpans
  · simp only [ConsumeTraces.spanStep, hm, Bool.not_true, if_true, Bool.false_eq_true, if_false]
    rw [foldl_logs_eq (ConsumeTraces.eventStep c span resource scope scopeSpans resourceSpans)
      (fun ev =>
        if matchesEventConditionsWithContext c ev span resource scope scopeSpans
            resourceSpans then
          createLogRecord c ev span resource scope []
        else [])]
    intro st0 ev
    by_cases he : matchesEventConditionsWithContext c ev span resource scope scopeSpans
        resourceSpans
    · simp only [ConsumeTraces.eventStep, he, if_true]
      exact createLogRecord_append c ev span resource scope st0.logs
    · simp [ConsumeTraces.eventStep, he]
  · simp [ConsumeTraces.spanStep, hm]

theorem flatMap_map_filter {α β γ : Type} (p : α → Bool) (f : α → β) (g : β → List γ)
    (l : List α) :
    ((l.filter p).map f).flatMap g = l.flatMap fun x => if p x then g (f x) else [] := by
  induction l with
  | nil => rfl
  | cons x rest ih =>
    by_cases hp : p x
    · simp [List.filter_cons, hp, List.flatMap_cons, ih]
    · simp [List.filter_cons, hp, List.flatMap_cons, ih]

/-- The batch accumulated by the traversal, as the concatenation of the single
entries built for the matched pairs. -/
theorem traverse_logs_eq (c : SpanEventConnector) (td : Traces) :
    (ConsumeTraces.traverse c td).logs =
      (matchedPairs c td).flatMap fun p =>
        createLogRecord c p.event p.span p.resourceSpans.Resource p.scopeSpans.Scope [] := by
  have hscope : ∀ (rs : ResourceSpans) (st : LoopState) (ss : ScopeSpans),
      (ConsumeTraces.scopeStep c rs.Resource rs st ss).logs =
        st.logs ++ ss.Spans.flatMap fun span =>
          if matchesSpanConditionsWithContext c span rs.Resource ss.Scope ss rs then
            span.Events.flatMap fun ev =>
              if matchesEventConditionsWithContext c ev span rs.Resource ss.Scope ss rs then
                createLogRecord c ev span rs.Resource ss.Scope []
              else []
          else [] := by
    intro rs st ss
    simp only [ConsumeTraces.scopeStep]
    exact foldl_logs_eq _ _ (fun st0 span => spanStep_logs c rs.Resource ss.Scope ss rs st0 span)
      ss.Spans st
  have hres : ∀ (st : LoopState) (rs : ResourceSpans),
      (ConsumeTraces.resourceStep c st rs).logs =
        st.logs ++ rs.ScopeSpans.flatMap fun ss => ss.Spans.flatMap fun span =>
          if matchesSpanConditionsWithContext c span rs.Resource ss.Scope ss rs then
            span.Events.flatMap fun ev =>
              if matchesEventConditionsWithContext c ev span rs.Resource ss.Scope ss rs then
                createLogRecord c ev span rs.Resource ss.Scope []
              else []
          else [] := by
    intro st rs
    simp only [ConsumeTraces.resourceStep]
    exact foldl_logs_eq _ _ (fun st0 ss => hscope rs st0 ss) rs.ScopeSpans st
  simp only [ConsumeTraces.traverse]
  rw [foldl_logs_eq _ _ hres td _]
  simp only [List.nil_append, matchedPairs, List.flatMap_assoc]
  congr 1
  funext rs
  congr 1
  funext ss
  congr 1
  funext span
  by_cases hm : matchesSpanConditionsWithContext c span rs.Resource ss.Scope ss rs
  · simp only [hm, if_true]
    rw [flatMap_map_filter]
  · simp [hm]

/-- C4: the batch accumulated by `ConsumeTraces` is, in traversal order, the
single entry that `createLogRecord` builds for each (span, event) pair whose
span and event both match, and nothing else; every call of `createLogRecord`
appends exactly one `ResourceLogs` holding exactly one `ScopeLogs` holding
exactly one `LogRecord`. -/
theorem accumulated_logs_one_entry_per_matched_pair (c : SpanEventConnector) (td : Traces) :
    (ConsumeTraces c td).logs =
        (matchedPairs c td).flatMap (fun p =>
          createLogRecord c p.event p.span p.resourceSpans.Resource p.scopeSpans.Scope []) ∧
      (ConsumeTraces c td).logs.length = (matchedPairs c td).length ∧
      ∀ (event : SpanEvent) (span : Span) (resource : Resource) (scope : InstrumentationScope)
        (logs : Logs),
        ∃ rl sl lr, createLogRecord c event span resource scope logs = logs ++ [rl] ∧
          rl.ScopeLogs = [sl] ∧ sl.LogRecords = [lr] := by
  refine ⟨?_, ?_, ?_⟩
  · rw [ConsumeTraces_logs, traverse_logs_eq]
  · rw [ConsumeTraces_logs, traverse_logs_eq]
    generalize matchedPairs c td = ps
    induction ps with
    | nil => rfl
    | cons p rest ih =>
      rw [List.flatMap_cons, List.length_append, ih]
      simp [createLogRecord, Nat.add_comm]
  · intro event span resource scope logs
    exact ⟨_, _, _, rfl, rfl, rfl⟩

/-! ## The log record -/

/-- C5: the record built by `createLogRecord` has the timestamp of the event
(for every span, so whatever its start and end times), the trace and span
identifiers of the owning span, and flags 0. -/
theorem log_record_timestamp_and_ids (c : SpanEventConnector) (event : SpanEvent) (span : Span)
    (resource : Resource) (scope : InstrumentationScope) (logs : Logs) :
    ∃ rl sl lr, createLogRecord c event span resource scope logs = logs ++ [rl] ∧
      rl.ScopeLogs = [sl] ∧ sl.LogRecords = [lr] ∧
      lr.Timestamp = event.Timestamp ∧ lr.TraceID = span.TraceID ∧
      lr.SpanID = span.SpanID ∧ lr.Flags = 0 :=
  ⟨_, _, _, rfl, rfl, rfl, rfl, rfl, rfl, rfl⟩

/-- C6: `getSeverityNumber` maps Trace, Debug, Info, Warn, Error and Fatal to 1,
5, 9, 13, 17 and 21 and every other string to 9; the record built by
`createLogRecord` has the configured log level as severity text and
`getSeverityNumber` of that string as severity number. -/
theorem severity_mapping_and_record_severity :
    (getSeverityNumber "Trace" = 1 ∧ getSeverityNumber "Debug" = 5 ∧
        getSeverityNumber "Info" = 9 ∧ getSeverityNumber "Warn" = 13 ∧
        getSeverityNumber "Error" = 17 ∧ getSeverityNumber "Fatal" = 21) ∧
      (∀ level : String, level = "Trace" ∨ level = "Debug" ∨ level = "Info" ∨ level = "Warn" ∨
        level = "Error" ∨ level = "Fatal" ∨ getSeverityNumber level = 9) ∧
      ∀ (c : SpanEventConnector) (event : SpanEvent) (span : Span) (resource : Resource)
        (scope : InstrumentationScope) (logs : Logs),
        ∃ rl sl lr, createLogRecord c event span resource scope logs = logs ++ [rl] ∧
          rl.ScopeLogs = [sl] ∧ sl.LogRecords = [lr] ∧
          lr.SeverityText = c.config.LogLevel ∧
          lr.SeverityNumber = getSeverityNumber c.config.LogLevel := by
  refine ⟨⟨rfl, rfl, rfl, rfl, rfl, rfl⟩, ?_, ?_⟩
  · intro level
    unfold getSeverityNumber
    split <;> simp
  · intro c event span resource scope logs
    exact ⟨_, _, _, rfl, rfl, rfl, rfl, rfl⟩

/-! ## Attribute maps -/

theorem Map.Get_setFirst_same (m : Map) (k : String) (v : Value) (h : (Map.Get m k).isSome) :
    Map.Get (Map.setFirst m k v) k = some v := by
  induction m with
  | nil => simp [Map.Get] at h
  | cons kv rest ih =>
    obtain ⟨k0, v0⟩ := kv
    by_cases hk : k0 = k
    · simp [Map.setFirst, Map.Get, hk]
    · simp only [Map.Get, hk, if_false] at h
      simp [Map.setFirst, Map.Get, hk, ih h]

theorem Map.Get_setFirst_other (m : Map) (k key : String) (v : Value) (h : key ≠ k) :
    Map.Get (Map.setFirst m k v) key = Map.Get m key := by
  induction m with
  | nil => rfl
  | cons kv rest ih =>
    obtain ⟨k0, v0⟩ := kv
    have h1 : ¬ k = key := fun h0 => h h0.symm
    by_cases hk : k0 = k
    · subst hk
      simp [Map.setFirst, Map.Get, h1]
    · by_cases hkey : k0 = key
      · subst hkey
        simp [Map.setFirst, Map.Get, hk]
      · simp [Map.setFirst, Map.Get, hk, hkey, ih]

theorem Map.Get_append_single (m : Map) (k key : String) (v : Value) :
    Map.Get (m ++ [(k, v)]) key =
      match Map.Get m key with
      | some x => some x
      | none => if k = key then some v else none := by
  induction m with
  | nil => simp [Map.Get]
  | cons kv rest ih =>
    obtain ⟨k0, v0⟩ := kv
    by_cases hk : k0 = key
    · simp [Map.Get, hk]
    · simp [Map.Get, hk, ih]

theorem Map.Get_PutEmpty_same (m : Map) (k : String) :
    Map.Get (Map.PutEmpty m k) k = some Value.empty := by
  unfold Map.PutEmpty
  cases h : Map.Get m k with
  | some x => exact Map.Get_setFirst_same m k _ (by simp [h])
  | none => simp [Map.Get_append_single, h]

theorem Map.Get_PutEmpty_other (m : Map) (k key : String) (hne : key ≠ k) :
    Map.Get (Map.PutEmpty m k) key = Map.Get m key := by
  unfold Map.PutEmpty
  cases h : Map.Get m k with
  | some x => exact Map.Get_setFirst_other m k key _ hne
  | none =>
    simp only [Map.Get_append_single]
    cases Map.Get m key with
    | some y => rfl
    | none => simp [Ne.symm hne]

/-- After `v.CopyTo(attrs.PutEmpty(key))` the key holds `v`. -/
theorem Map.Get_putCopy_same (m : Map) (k : String) (v : Value) :
    Map.Get (Map.putCopy m k v) k = some v := by
  simp only [Map.putCopy, Map.Get_PutEmpty_same, Value.CopyTo]
  exact Map.Get_setFirst_same _ k v (by simp [Map.Get_PutEmpty_same])

/-- The statement `v.CopyTo(attrs.PutEmpty(key))` leaves every other key as it was. -/
theorem Map.Get_putCopy_other (m : Map) (k key : String) (v : Value) (hne : key ≠ k) :
    Map.Get (Map.putCopy m k v) key = Map.Get m key := by
  simp only [Map.putCopy, Map.Get_PutEmpty_same, Value.CopyTo]
  rw [Map.Get_setFirst_other _ k key v hne, Map.Get_PutEmpty_other m k key hne]

theorem Map.Get_PutStr_same (m : Map) (k v : String) :
    Map.Get (Map.PutStr m k v) k = some (Value.str v) := by
  unfold Map.PutStr
  cases h : Map.Get m k with
  | some x => exact Map.Get_setFirst_same m k _ (by simp [h])
  | none => simp [Map.Get_append_single, h]

theorem Map.Get_PutStr_other (m : Map) (k key v : String) (hne : key ≠ k) :
    Map.Get (Map.PutStr m k v) key = Map.Get m key := by
  unfold Map.PutStr
  cases h : Map.Get m k with
  | some x => exact Map.Get_setFirst_other m k key _ hne
  | none =>
    simp only [Map.Get_append_single]
    cases Map.Get m key with
    | some y => rfl
    | none => simp [Ne.symm hne]

/-- Copying a list of attributes under a prefix leaves a key alone when it is
not the prefixed key of any of them. -/
theorem Map.Get_copyAll_other (pfx : String) (l : Map) (m : Map) (key : String)
    (h : ∀ kv ∈ l, key ≠ pfx ++ kv.1) :
    Map.Get (Map.Range l (fun attrs k v => Map.putCopy attrs (pfx ++ k) v) m) key =
      Map.Get m key := by
  induction l generalizing m with
  | nil => rfl
  | cons kv rest ih =>
    simp only [Map.Range, List.foldl_cons] at ih ⊢
    rw [ih _ (fun kv0 h0 => h kv0 (List.mem_cons_of_mem _ h0)),
      Map.Get_putCopy_other _ _ _ _ (h kv (List.mem_cons_self _ _))]

theorem String.append_left_cancel (pfx a b : String) (h : pfx ++ a = pfx ++ b) : a = b := by
  have h1 := congrArg String.data h
  simp only [String.data_append] at h1
  exact String.ext (List.append_cancel_left h1)

/-- Copying a list of attributes with distinct keys under a prefix stores each
value under its prefixed key. -/
theorem Map.Get_copyAll_mem (pfx : String) (l : Map) (m : Map)
    (hnd : (l.map Prod.fst).Nodup) (k : String) (v : Value) (hmem : (k, v) ∈ l) :
    Map.Get (Map.Range l (fun attrs k v => Map.putCopy attrs (pfx ++ k) v) m) (pfx ++ k) =
      some v := by
  induction l generalizing m with
  | nil => simp at hmem
  | cons kv rest ih =>
    have hnd0 : kv.1 ∉ rest.map Prod.fst ∧ (rest.map Prod.fst).Nodup := List.nodup_cons.1 hnd
    rcases List.mem_cons.1 hmem with heq | hin
    · subst heq
      have hother := Map.Get_copyAll_other pfx rest (Map.putCopy m (pfx ++ k) v) (pfx ++ k)
        (fun kv0 h0 hk => hnd0.1 (by
          have hk0 : k = kv0.1 := String.append_left_cancel pfx _ _ hk
          show k ∈ rest.map Prod.fst
          rw [hk0]
          exact List.mem_map_of_mem Prod.fst h0))
      simp only [Map.Range, List.foldl_cons] at hother ⊢
      rw [hother, Map.Get_putCopy_same]
    · have := ih (Map.putCopy m (pfx ++ kv.1) kv.2) hnd0.2 hin
      simpa only [Map.Range, List.foldl_cons] using this

theorem span_prefix_ne_event_prefix (a b : String) : "span." ++ a ≠ "event." ++ b := by
  intro h
  have h1 := congrArg String.data h
  simp only [String.data_append] at h1
  have h2 : ("span.".data ++ a.data).head? = ("event.".data ++ b.data).head? := by rw [h1]
  simp at h2

/-- C9, evaluated on a span that has an attribute named `name`, with span
attributes included: the attribute `span.name` of the record is the integer 7
copied from that attribute, not the string holding the name of the span. -/
theorem base_attribute_overwritten_by_span_attribute :
    ∃ rl sl lr,
      createLogRecord Sample.connector Sample.event Sample.collidingSpan
        Sample.resourceSpans.Resource Sample.scopeSpans.Scope [] = [rl] ∧
      rl.ScopeLogs = [sl] ∧ sl.LogRecords = [lr] ∧
      Sample.connector.config.IncludeSpanAttributes = true ∧
      Sample.collidingSpan.Name = "GET /api/cart" ∧
      Map.Get lr.Attributes "span.name" = some (Value.int 7) ∧
      Map.Get lr.Attributes "span.name" ≠ some (Value.str Sample.collidingSpan.Name) := by
  refine ⟨_, _, _, rfl, rfl, rfl, rfl, rfl, ?_, ?_⟩
  · rfl
  · have h : Map.Get (createLogRecord.record Sample.connector Sample.event
        Sample.collidingSpan).Attributes "span.name" = some (Value.int 7) := rfl
    rw [h]
    simp

/-- C10: with distinct span attribute keys and distinct event attribute keys,
when span attributes are included every span attribute `(k, v)` is found in
the record under `"span." ++ k` with the value `v` itself, and when event
attributes are included every event attribute `(k, v)` is found under
`"event." ++ k` with the value `v` itself; both hold for the same record, so
neither copy overwrites an entry of the other. -/
theorem attribute_projection_preserves_values (c : SpanEventConnector) (event : SpanEvent)
    (span : Span) (resource : Resource) (scope : InstrumentationScope) (logs : Logs)
    (hs : (span.Attributes.map Prod.fst).Nodup) (he : (event.Attributes.map Prod.fst).Nodup) :
    ∃ rl sl lr, createLogRecord c event span resource scope logs = logs ++ [rl] ∧
      rl.ScopeLogs = [sl] ∧ sl.LogRecords = [lr] ∧
      (c.config.IncludeSpanAttributes = true → ∀ k v, (k, v) ∈ span.Attributes →
        Map.Get lr.Attributes ("span." ++ k) = some v) ∧
      (c.config.IncludeEventAttributes = true → ∀ k v, (k, v) ∈ event.Attributes →
        Map.Get lr.Attributes ("event." ++ k) = some v) := by
  refine ⟨_, _, _, rfl, rfl, rfl, ?_, ?_⟩
  · intro hflag k v hmem
    simp only [createLogRecord.record, hflag, if_true]
    by_cases hev : c.config.IncludeEventAttributes = true
    · simp only [hev, if_true]
      rw [Map.Get_copyAll_other "event." event.Attributes _ ("span." ++ k)
        (fun kv _ => span_prefix_ne_event_prefix k kv.1)]
      exact Map.Get_copyAll_mem "span." span.Attributes _ hs k v hmem
    · simp only [hev]
      exact Map.Get_copyAll_mem "span." span.Attributes _ hs k v hmem
  · intro hflag k v hmem
    simp only [createLogRecord.record, hflag, if_true]
    exact Map.Get_copyAll_mem "event." event.Attributes _ he k v hmem

/-- Witness of C10 on the sample span and event, whose attributes include an
integer, booleans and a nested slice holding a map. -/
theorem attribute_projection_preserves_values_witness :
    ∃ rl sl lr,
      createLogRecord Sample.connector Sample.event Sample.span Sample.resourceSpans.Resource
        Sample.scopeSpans.Scope [] = [] ++ [rl] ∧
      rl.ScopeLogs = [sl] ∧ sl.LogRecords = [lr] ∧
      (Sample.connector.config.IncludeSpanAttributes = true → ∀ k v,
        (k, v) ∈ Sample.span.Attributes → Map.Get lr.Attributes ("span." ++ k) = some v) ∧
      (Sample.connector.config.IncludeEventAttributes = true → ∀ k v,
        (k, v) ∈ Sample.event.Attributes → Map.Get lr.Attributes ("event." ++ k) = some v) :=
  attribute_projection_preserves_values Sample.connector Sample.event Sample.span
    Sample.resourceSpans.Resource Sample.scopeSpans.Scope [] (by decide) (by decide)

/-! ## Configuration validation -/

/-- C7, evaluated on the template `{{if false}}{{(.BadField).Foo}}{{else}}ok{{end}}`:
the tree holds a field reference whose first identifier, `BadField`, is not
allowed; it sits under a chain node, for which `walkNodes` has no case, in a
branch that the sample execution does not reach, and `Validate` returns nil. -/
theorem validate_accepts_disallowed_field_under_chain :
    ["BadField"] ∈ fieldRefs Sample.chainTree ∧ "BadField" ∉ allowed ∧
      (∃ tmpl, Sample.env.ParseTemplate Sample.chainConfig.LogBodyTemplate = Except.ok tmpl ∧
        tmpl.Templates = [some Sample.chainTree]) ∧
      walkNodes Sample.chainTree = Outcome.ok ∧
      Validate Sample.env Sample.chainConfig = Outcome.ok := by
  refine ⟨?_, by decide, ⟨Sample.chainTemplate, rfl, rfl⟩, ?_, ?_⟩
  · simp [Sample.chainTree, fieldRefs, fieldRefs.each, fieldRefs.optional]
  · simp [Sample.chainTree, walkNodes, walkNodes.each, walkNodes.elseList, Outcome.andThen]
  · rfl

theorem Validate.logLevel_error (cfg : Config) (hne : cfg.LogLevel ≠ "")
    (hnot : cfg.LogLevel ∉ validLevels) :
    ∃ msg, Validate.logLevel cfg = Outcome.error msg := by
  have hfound : (validLevels.any fun level => decide (cfg.LogLevel = level)) = false := by
    rw [List.any_eq_false]
    intro level hmem
    simp only [decide_eq_true_eq]
    intro heq
    exact hnot (heq ▸ hmem)
  exact ⟨_, by simp only [Validate.logLevel, hfound]; rw [if_pos hne]; rfl⟩

/-- A configuration with a non-empty log level outside the six levels is
rejected, whatever its other fields are. -/
theorem Validate_error_of_bad_level (env : ValidateEnv) (cfg : Config) (hne : cfg.LogLevel ≠ "")
    (hnot : cfg.LogLevel ∉ validLevels) : ∃ msg, Validate env cfg = Outcome.error msg := by
  obtain ⟨msg, hmsg⟩ := Validate.logLevel_error cfg hne hnot
  unfold Validate
  split
  · exact ⟨_, rfl⟩
  · exact ⟨msg, by rw [hmsg]; rfl⟩

/-- C8 as stated fails on the code: a configuration whose log level is the
empty string, which is not one of the six levels, is accepted. -/
theorem empty_log_level_is_accepted :
    Sample.emptyLevelConfig.LogLevel ∉ validLevels ∧
      Validate Sample.env Sample.emptyLevelConfig = Outcome.ok :=
  ⟨by decide, rfl⟩

/-- C8, amended: for every non-empty log level, `Validate` returns an error
when the level is not exactly one of Trace, Debug, Info, Warn, Error, Fatal,
whatever the other fields are; so a configuration that `Validate` accepts with
a non-empty log level has one of the six levels. -/
theorem nonempty_log_level_outside_levels_rejected (env : ValidateEnv) (cfg : Config)
    (hne : cfg.LogLevel ≠ "") :
    (cfg.LogLevel ∉ validLevels → ∃ msg, Validate env cfg = Outcome.error msg) ∧
      (Validate env cfg = Outcome.ok → cfg.LogLevel ∈ validLevels) := by
  refine ⟨Validate_error_of_bad_level env cfg hne, fun hok => ?_⟩
  by_contra hnot
  obtain ⟨msg, hmsg⟩ := Validate_error_of_bad_level env cfg hne hnot
  rw [hok] at hmsg
  cases hmsg

/-- Witness of amended C8: the configuration of the test case
`invalid_log_level` is rejected. -/
theorem nonempty_log_level_outside_levels_rejected_witness :
    ∃ msg, Validate Sample.env Sample.invalidLevelConfig = Outcome.error msg :=
  (nonempty_log_level_outside_levels_rejected Sample.env Sample.invalidLevelConfig
    (by decide)).1 (by decide)

/-! ## Forwarding and counters -/

theorem traverse_logs_length (c : SpanEventConnector) (td : Traces) :
    (ConsumeTraces.traverse c td).logs.length = (matchedPairs c td).length := by
  rw [traverse_logs_eq]
  generalize matchedPairs c td = ps
  induction ps with
  | nil => rfl
  | cons p rest ih =>
    rw [List.flatMap_cons, List.length_append, ih]
    simp [createLogRecord, Nat.add_comm]

/-- C11: when at least one (span, event) pair matched, `ConsumeTraces` makes
exactly one downstream call, with the whole accumulated batch, and returns the
result of that call; when no pair matched it makes no downstream call and
returns nil. -/
theorem consumer_called_once_iff_some_pair_matched (c : SpanEventConnector) (td : Traces) :
    (ConsumeTraces c td).consumerCalls =
        (if (matchedPairs c td).length > 0 then [(ConsumeTraces c td).logs] else []) ∧
      (ConsumeTraces c td).err =
        (if (matchedPairs c td).length > 0 then c.consumer (ConsumeTraces c td).logs else none) ∧
      (ConsumeTraces c td).logs =
        (matchedPairs c td).flatMap (fun p =>
          createLogRecord c p.event p.span p.resourceSpans.Resource p.scopeSpans.Scope []) := by
  have hlen := traverse_logs_length c td
  refine ⟨?_, ?_, ?_⟩
  · simp only [ConsumeTraces, hlen]
    by_cases h : (matchedPairs c td).length > 0
    · simp only [if_pos h]
    · simp only [if_neg h]
  · simp only [ConsumeTraces, hlen]
    by_cases h : (matchedPairs c td).length > 0
    · simp only [if_pos h]
    · simp only [if_neg h]
  · rw [ConsumeTraces_logs, traverse_logs_eq]

/-- C13: entry by entry, the accumulated batch carries the resource of the
`ResourceSpans` that contains the matched span, and in its single `ScopeLogs`
the scope of the `ScopeSpans` that contains it. -/
theorem accumulated_entries_carry_resource_and_scope (c : SpanEventConnector) (td : Traces) :
    (ConsumeTraces c td).logs.map (fun rl => (rl.Resource, rl.ScopeLogs.map fun sl => sl.Scope)) =
      (matchedPairs c td).map fun p => (p.resourceSpans.Resource, [p.scopeSpans.Scope]) := by
  rw [ConsumeTraces_logs, traverse_logs_eq]
  generalize matchedPairs c td = ps
  induction ps with
  | nil => rfl
  | cons p rest ih =>
    rw [List.flatMap_cons, List.map_append, ih]
    simp [createLogRecord, Resource.CopyTo, InstrumentationScope.CopyTo]

/-- C15: in one call of `ConsumeTraces`, either the consumer is not called or
no counter is updated, and either no counter is updated or the accumulated
batch has zero `ResourceLogs` entries. -/
theorem counters_and_forwarding_exclusive (c : SpanEventConnector) (td : Traces) :
    ((ConsumeTraces c td).consumerCalls = [] ∨
        ((ConsumeTraces c td).spansHandledAdds = [] ∧
          (ConsumeTraces c td).logsProducedAdds = [])) ∧
      (((ConsumeTraces c td).spansHandledAdds = [] ∧
          (ConsumeTraces c td).logsProducedAdds = []) ∨
        (ConsumeTraces c td).logs.length = 0) := by
  by_cases h : (ConsumeTraces.traverse c td).logs.length > 0
  · have hs : (ConsumeTraces c td).spansHandledAdds = [] := by
      simp only [ConsumeTraces, if_pos h]
    have hl : (ConsumeTraces c td).logsProducedAdds = [] := by
      simp only [ConsumeTraces, if_pos h]
    exact ⟨Or.inr ⟨hs, hl⟩, Or.inl ⟨hs, hl⟩⟩
  · have hc : (ConsumeTraces c td).consumerCalls = [] := by
      simp only [ConsumeTraces, if_neg h]
    have h0 : (ConsumeTraces c td).logs.length = 0 := by
      rw [ConsumeTraces_logs]
      omega
    exact ⟨Or.inl hc, Or.inr h0⟩

/-- C16, evaluated on the sample batch with both counters present: two spans
pass the span conditions and two log records are produced, the batch is
forwarded, and nothing is added to either counter. -/
theorem counters_not_updated_when_logs_forwarded :
    Sample.connector.spansHandledCounter = true ∧
      Sample.connector.logsProducedCounter = true ∧
      (ConsumeTraces.traverse Sample.connector [Sample.resourceSpans]).numSpansHandled = 2 ∧
      (ConsumeTraces.traverse Sample.connector [Sample.resourceSpans]).numLogsProduced = 2 ∧
      (ConsumeTraces Sample.connector [Sample.resourceSpans]).logs.length = 2 ∧
      (ConsumeTraces Sample.connector [Sample.resourceSpans]).consumerCalls.length = 1 ∧
      (ConsumeTraces Sample.connector [Sample.resourceSpans]).spansHandledAdds = [] ∧
      (ConsumeTraces Sample.connector [Sample.resourceSpans]).logsProducedAdds = [] :=
  ⟨rfl, rfl, rfl, rfl, rfl, rfl, rfl, rfl⟩

/-! ## The log body -/

theorem StringMap.get_set (m : List (String × String)) (k v key : String) :
    StringMap.get (StringMap.set m k v) key =
      if k = key then some v else StringMap.get m key := by
  induction m with
  | nil => simp [StringMap.set, StringMap.get]
  | cons kv rest ih =>
    obtain ⟨k0, v0⟩ := kv
    by_cases h0 : k0 = k
    · subst h0
      by_cases h1 : k0 = key
      · simp [StringMap.set, StringMap.get, h1]
      · simp [StringMap.set, StringMap.get, h1]
    · by_cases h1 : k0 = key
      · subst h1
        simp [StringMap.set, StringMap.get, h0, Ne.symm h0]
      · simp [StringMap.set, StringMap.get, h0, h1, ih]

/-- The Go map filled by ranging over attributes holds, for each key, the
rendering of the last attribute with that key. -/
theorem StringMap.get_collect (f : Value → String) (attrs : Map) (m : List (String × String))
    (key : String) :
    StringMap.get (Map.Range attrs (fun acc k v => StringMap.set acc k (f v)) m) key =
      match Map.Get attrs.reverse key with
      | some v => some (f v)
      | none => StringMap.get m key := by
  induction attrs generalizing m with
  | nil => rfl
  | cons kv rest ih =>
    obtain ⟨k0, v0⟩ := kv
    simp only [Map.Range, List.foldl_cons] at ih ⊢
    rw [ih, List.reverse_cons, Map.Get_append_single, StringMap.get_set]
    cases Map.Get rest.reverse key with
    | some x => rfl
    | none =>
      by_cases h : k0 = key
      · simp [h]
      · simp [h]

/-- C12: `generateLogBody` always returns a string.  The template is executed
on the event name, the span name and the two attribute maps with every value
rendered as a string (for a repeated key, the last attribute); the result is
`"Span Event: "` followed by the event name when there is no template or when
the execution returns an error, and the whole output of the execution
otherwise. -/
theorem generateLogBody_fallback_or_full_output (c : SpanEventConnector) (event : SpanEvent)
    (span : Span) :
    ∃ data : TemplateData,
      data.EventName = event.Name ∧ data.SpanName = span.Name ∧
      (∀ k, StringMap.get data.EventAttributes k =
        (Map.Get event.Attributes.reverse k).map (Value.AsString c.render)) ∧
      (∀ k, StringMap.get data.SpanAttributes k =
        (Map.Get span.Attributes.reverse k).map (Value.AsString c.render)) ∧
      generateLogBody c event span =
        match c.bodyTemplate with
        | none => "Span Event: " ++ event.Name
        | some tmpl =>
          match (tmpl.Execute data).2 with
          | some _ => "Span Event: " ++ event.Name
          | none => (tmpl.Execute data).1 := by
  refine ⟨{ EventName := event.Name
            SpanName := span.Name
            EventAttributes :=
              Map.Range event.Attributes
                (fun attrs k v => StringMap.set attrs k (Value.AsString c.render v)) []
            SpanAttributes :=
              Map.Range span.Attributes
                (fun attrs k v => StringMap.set attrs k (Value.AsString c.render v)) [] },
    rfl, rfl, ?_, ?_, ?_⟩
  · intro k
    rw [StringMap.get_collect]
    cases Map.Get event.Attributes.reverse k <;> rfl
  · intro k
    rw [StringMap.get_collect]
    cases Map.Get span.Attributes.reverse k <;> rfl
  · unfold generateLogBody
    cases c.bodyTemplate with
    | none => rfl
    | some tmpl =>
      simp only
      generalize tmpl.Execute _ = out
      obtain ⟨buf, err⟩ := out
      cases err <;> rfl

/-- C18: a batch of one resource, one scope and one span named `GET /api/cart`
with one event named `exception`, log level `Error`, a template that writes
`Error in`, the span name, a colon and the event name, and predicates that
match the span and the event: exactly one record is accumulated, with severity
text `Error`, severity number 17 and body `Error in GET /api/cart: exception`. -/
theorem scenario_one_error_record (c : SpanEventConnector) (tmpl : Template)
    (rs : ResourceSpans) (ss : ScopeSpans) (span : Span) (event : SpanEvent)
    (hrs : rs.ScopeSpans = [ss]) (hss : ss.Spans = [span]) (hev : span.Events = [event])
    (hname : span.Name = "GET /api/cart") (hevname : event.Name = "exception")
    (hlevel : c.config.LogLevel = "Error") (htmpl : c.bodyTemplate = some tmpl)
    (hexec : ∀ data : TemplateData,
      tmpl.Execute data = ("Error in " ++ data.SpanName ++ ": " ++ data.EventName, none))
    (hspan : matchesSpanConditionsWithContext c span rs.Resource ss.Scope ss rs = true)
    (hevent : matchesEventConditionsWithContext c event span rs.Resource ss.Scope ss rs = true) :
    ∃ rl sl lr, (ConsumeTraces c [rs]).logs = [rl] ∧ rl.ScopeLogs = [sl] ∧
      sl.LogRecords = [lr] ∧ lr.SeverityText = "Error" ∧ lr.SeverityNumber = 17 ∧
      lr.Body = Value.str "Error in GET /api/cart: exception" := by
  have hlogs : (ConsumeTraces c [rs]).logs =
      createLogRecord c event span rs.Resource ss.Scope [] := by
    rw [ConsumeTraces_logs]
    simp [ConsumeTraces.traverse, ConsumeTraces.resourceStep, hrs, ConsumeTraces.scopeStep, hss,
      ConsumeTraces.spanStep, hspan, hev, ConsumeTraces.eventStep, hevent]
  have hbody : generateLogBody c event span = "Error in GET /api/cart: exception" := by
    simp only [generateLogBody, htmpl, hexec, hname, hevname]
    decide
  refine ⟨_, _, _, hlogs, rfl, rfl, ?_, ?_, ?_⟩
  · exact hlevel
  · show getSeverityNumber c.config.LogLevel = 17
    rw [hlevel]
    rfl
  · show Value.str (generateLogBody c event span) = _
    rw [hbody]

/-- Witness of C18 on the sample scenario, whose event carries the attribute
`exception.type = ConnectionError`. -/
theorem scenario_one_error_record_witness :
    ∃ rl sl lr, (ConsumeTraces Sample.scenarioConnector [Sample.scenarioResourceSpans]).logs = [rl] ∧
      rl.ScopeLogs = [sl] ∧ sl.LogRecords = [lr] ∧ lr.SeverityText = "Error" ∧
      lr.SeverityNumber = 17 ∧ lr.Body = Value.str "Error in GET /api/cart: exception" :=
  scenario_one_error_record Sample.scenarioConnector Sample.scenarioTemplate
    Sample.scenarioResourceSpans Sample.scenarioScopeSpans Sample.scenarioSpan
    Sample.scenarioEvent rfl rfl rfl rfl rfl rfl rfl (fun _ => rfl) rfl rfl

/-! ## Error messages of validation -/

theorem String.head_append (a b : String) (ch : Char) (h : a.data.head? = some ch) :
    (a ++ b).data.head? = some ch := by
  rw [String.data_append]
  cases ha : a.data with
  | nil => simp [ha] at h
  | cons x xs =>
    rw [ha] at h
    simpa using h

theorem Outcome.andThen_eq_error (a : Outcome) (next : Unit → Outcome) (msg : String)
    (h : a.andThen next = Outcome.error msg) :
    a = Outcome.error msg ∨ (a = Outcome.ok ∧ next () = Outcome.error msg) := by
  cases a with
  | ok => exact Or.inr ⟨rfl, h⟩
  | error m => exact Or.inl h
  | panic => cases h

theorem walkNodes.checkIdent_error_head (ident : List String) (msg : String)
    (h : walkNodes.checkIdent ident = Outcome.error msg) : msg.data.head? = some 'i' := by
  cases ident with
  | nil => cases h
  | cons field rest =>
    simp only [walkNodes.checkIdent] at h
    split at h
    · cases h
    · cases h
      exact String.head_append _ _ _ (String.head_append _ _ _ (by decide))

/-- Every error returned by `walkNodes` is an invalid field message. -/
theorem walkNodes_error_head (n : Node) :
    ∀ msg, walkNodes n = Outcome.error msg → msg.data.head? = some 'i' := by
  apply @Node.rec
    (fun n => ∀ msg, walkNodes n = Outcome.error msg → msg.data.head? = some 'i')
    (fun l => ∀ msg, walkNodes.each l = Outcome.error msg → msg.data.head? = some 'i')
    (fun o => ∀ msg, walkNodes.elseList o = Outcome.error msg → msg.data.head? = some 'i')
  case List => intro nodes ih msg h; rw [walkNodes] at h; exact ih msg h
  case Text => intro t msg h; rw [walkNodes] at h; cases h
  case Comment => intro t msg h; rw [walkNodes] at h; cases h
  case Action => intro pipe ih msg h; rw [walkNodes] at h; exact ih msg h
  case Pipe => intro a d cmds ih msg h; rw [walkNodes] at h; exact ih msg h
  case Command => intro args ih msg h; rw [walkNodes] at h; exact ih msg h
  case Identifier => intro t msg h; rw [walkNodes] at h; cases h
  case Variable =>
    intro ident msg h; rw [walkNodes] at h; exact walkNodes.checkIdent_error_head ident msg h
  case Dot => intro msg h; rw [walkNodes] at h; cases h
  case Nil => intro msg h; rw [walkNodes] at h; cases h
  case Field =>
    intro ident msg h; rw [walkNodes] at h; exact walkNodes.checkIdent_error_head ident msg h
  case Chain => intro node field _ msg h; rw [walkNodes] at h; cases h
  case Bool => intro b msg h; rw [walkNodes] at h; cases h
  case Number => intro t msg h; rw [walkNodes] at h; cases h
  case String => intro q t msg h; rw [walkNodes] at h; cases h
  case If =>
    intro pipe list elseList ih1 ih2 ih3 msg h
    rw [walkNodes] at h
    rcases Outcome.andThen_eq_error _ _ _ h with h1 | ⟨_, h1⟩
    · exact ih1 msg h1
    · rcases Outcome.andThen_eq_error _ _ _ h1 with h2 | ⟨_, h2⟩
      · exact ih2 msg h2
      · exact ih3 msg h2
  case Range =>
    intro pipe list elseList ih1 ih2 ih3 msg h
    rw [walkNodes] at h
    rcases Outcome.andThen_eq_error _ _ _ h with h1 | ⟨_, h1⟩
    · exact ih1 msg h1
    · rcases Outcome.andThen_eq_error _ _ _ h1 with h2 | ⟨_, h2⟩
      · exact ih2 msg h2
      · exact ih3 msg h2
  case With =>
    intro pipe list elseList ih1 ih2 ih3 msg h
    rw [walkNodes] at h
    rcases Outcome.andThen_eq_error _ _ _ h with h1 | ⟨_, h1⟩
    · exact ih1 msg h1
    · rcases Outcome.andThen_eq_error _ _ _ h1 with h2 | ⟨_, h2⟩
      · exact ih2 msg h2
      · exact ih3 msg h2
  case Break => intro msg h; rw [walkNodes] at h; cases h
  case Continue => intro msg h; rw [walkNodes] at h; cases h
  case Template => intro name pipe _ msg h; rw [walkNodes] at h; cases h
  case nil => intro msg h; rw [walkNodes.each] at h; cases h
  case cons =>
    intro head tail ih1 ih2 msg h
    rw [walkNodes.each] at h
    rcases Outcome.andThen_eq_error _ _ _ h with h1 | ⟨_, h1⟩
    · exact ih1 msg h1
    · exact ih2 msg h1
  case none => intro msg h; rw [walkNodes.elseList] at h; cases h
  case some => intro val ih msg h; rw [walkNodes.elseList] at h; exact ih msg h

theorem Validate.logLevel_error_head (cfg : Config) (msg : String)
    (h : Validate.logLevel cfg = Outcome.error msg) : msg.data.head? = some 'i' := by
  simp only [Validate.logLevel] at h
  split at h
  · split at h
    · cases h
      exact String.head_append _ _ _ (String.head_append _ _ _ (by decide))
    · cases h
  · cases h

theorem Validate.conditions_error_head (parseCondition : String → Option String)
    (what : String) (quote : String → String) (ch : Char) (hw : what.data.head? = some ch)
    (l : List String) (msg : String)
    (h : Validate.conditions parseCondition what quote l = Outcome.error msg) :
    msg.data.head? = some ch := by
  induction l with
  | nil => cases h
  | cons cond rest ih =>
    simp only [Validate.conditions] at h
    split at h
    · cases h
      exact String.head_append _ _ _ (String.head_append _ _ _ (String.head_append _ _ _ hw))
    · exact ih h

theorem Validate.spanConditions_error_head (env : ValidateEnv) (cfg : Config) (msg : String)
    (h : Validate.spanConditions env cfg = Outcome.error msg) :
    msg.data.head? = some 'i' ∨ msg.data.head? = some 'f' := by
  simp only [Validate.spanConditions] at h
  split at h
  · split at h
    · cases h
      exact Or.inr (String.head_append _ _ _ (by decide))
    · exact Or.inl (Validate.conditions_error_head _ _ _ 'i' (by decide) _ msg h)
  · cases h

theorem Validate.eventConditions_error_head (env : ValidateEnv) (cfg : Config) (msg : String)
    (h : Validate.eventConditions env cfg = Outcome.error msg) :
    msg.data.head? = some 'i' ∨ msg.data.head? = some 'f' := by
  simp only [Validate.eventConditions] at h
  split at h
  · split at h
    · cases h
      exact Or.inr (String.head_append _ _ _ (by decide))
    · exact Or.inl (Validate.conditions_error_head _ _ _ 'i' (by decide) _ msg h)
  · cases h

theorem Validate.walkTrees_error_head (trees : List (Option Node)) (msg : String)
    (h : Validate.walkTrees trees = Outcome.error msg) : msg.data.head? = some 'i' := by
  induction trees with
  | nil => cases h
  | cons tree rest ih =>
    cases tree with
    | none => exact ih h
    | some root =>
      simp only [Validate.walkTrees] at h
      rcases Outcome.andThen_eq_error _ _ _ h with h1 | ⟨_, h1⟩
      · exact walkNodes_error_head root msg h1
      · exact ih h1

theorem Validate.logBodyTemplate_error_head (env : ValidateEnv) (cfg : Config) (msg : String)
    (h : Validate.logBodyTemplate env cfg = Outcome.error msg) : msg.data.head? = some 'i' := by
  simp only [Validate.logBodyTemplate] at h
  split at h
  · split at h
    · cases h
      exact String.head_append _ _ _ (by decide)
    · split at h
      · cases h
        exact String.head_append _ _ _ (by decide)
      · exact Validate.walkTrees_error_head _ msg h
  · cases h

/-- The checks that follow the first one never return the message of the
first one. -/
theorem Validate_later_checks_message (env : ValidateEnv) (cfg : Config) (msg : String)
    (h : ((Validate.logLevel cfg).andThen fun _ =>
      (Validate.spanConditions env cfg).andThen fun _ =>
      (Validate.eventConditions env cfg).andThen fun _ =>
      Validate.logBodyTemplate env cfg) = Outcome.error msg) :
    msg.data.head? = some 'i' ∨ msg.data.head? = some 'f' := by
  rcases Outcome.andThen_eq_error _ _ _ h with h1 | ⟨_, h1⟩
  · exact Or.inl (Validate.logLevel_error_head cfg msg h1)
  · rcases Outcome.andThen_eq_error _ _ _ h1 with h2 | ⟨_, h2⟩
    · exact Validate.spanConditions_error_head env cfg msg h2
    · rcases Outcome.andThen_eq_error _ _ _ h2 with h3 | ⟨_, h3⟩
      · exact Validate.eventConditions_error_head env cfg msg h3
      · exact Or.inl (Validate.logBodyTemplate_error_head env cfg msg h3)

/-- C14: a configuration whose two condition lists are both empty is
rejected with the message `at least one span condition or event condition
must be specified`, whatever its other fields are; a configuration in which
one of the two lists is non-empty passes this check, that is `Validate` goes on
to the later checks and never returns that message. -/
theorem no_conditions_rejected_with_message (env : ValidateEnv) (cfg : Config)
    (h : cfg.SpanConditions ≠ [] ∨ cfg.EventConditions ≠ []) :
    Validate env { cfg with SpanConditions := [], EventConditions := [] } =
        Outcome.error "at least one span condition or event condition must be specified" ∧
      Validate env cfg ≠
        Outcome.error "at least one span condition or event condition must be specified" ∧
      Validate env cfg =
        ((Validate.logLevel cfg).andThen fun _ =>
          (Validate.spanConditions env cfg).andThen fun _ =>
          (Validate.eventConditions env cfg).andThen fun _ =>
          Validate.logBodyTemplate env cfg) := by
  have hnot : ¬ (cfg.SpanConditions.length = 0 ∧ cfg.EventConditions.length = 0) := by
    rintro ⟨h1, h2⟩
    rcases h with h | h
    · exact h (List.length_eq_zero.1 h1)
    · exact h (List.length_eq_zero.1 h2)
  have hrest : Validate env cfg =
      ((Validate.logLevel cfg).andThen fun _ =>
        (Validate.spanConditions env cfg).andThen fun _ =>
        (Validate.eventConditions env cfg).andThen fun _ =>
        Validate.logBodyTemplate env cfg) := by
    simp only [Validate, if_neg hnot]
  refine ⟨by simp [Validate], ?_, hrest⟩
  intro heq
  rw [hrest] at heq
  rcases Validate_later_checks_message env cfg _ heq with h1 | h1
  · revert h1
    decide
  · revert h1
    decide

/-- Witness of C14 on the configuration of the test case `valid_config`. -/
theorem no_conditions_rejected_with_message_witness :
    Validate Sample.testEnv
        { Sample.validConfig with SpanConditions := [], EventConditions := [] } =
        Outcome.error "at least one span condition or event condition must be specified" ∧
      Validate Sample.testEnv Sample.validConfig ≠
        Outcome.error "at least one span condition or event condition must be specified" :=
  have h := no_conditions_rejected_with_message Sample.testEnv Sample.validConfig
    (Or.inl (by decide))
  ⟨h.1, h.2.1⟩

/-! ## Accepted configurations -/

theorem Validate.logLevel_ok (cfg : Config) (h : cfg.LogLevel ∈ validLevels) :
    Validate.logLevel cfg = Outcome.ok := by
  have hfound : (validLevels.any fun level => decide (cfg.LogLevel = level)) = true := by
    rw [List.any_eq_true]
    exact ⟨cfg.LogLevel, h, by simp⟩
  simp only [Validate.logLevel, hfound]
  split <;> rfl

theorem Validate.conditions_ok (parseCondition : String → Option String) (what : String)
    (quote : String → String) (l : List String) (h : ∀ cond ∈ l, parseCondition cond = none) :
    Validate.conditions parseCondition what quote l = Outcome.ok := by
  induction l with
  | nil => rfl
  | cons cond rest ih =>
    simp only [Validate.conditions, h cond (List.mem_cons_self _ _)]
    exact ih fun c hc => h c (List.mem_cons_of_mem _ hc)

theorem walkNodes_ok_of_textOrPlaceholder (n : Node) (h : isTextOrPlaceholder n = true) :
    walkNodes n = Outcome.ok := by
  unfold isTextOrPlaceholder at h
  split at h
  · rw [walkNodes]
  · unfold isPlaceholderAction at h
    split at h
    · have hmem := of_decide_eq_true h
      simp [walkNodes, walkNodes.each, walkNodes.checkIdent, hmem, Outcome.andThen]
    · cases h

theorem walkNodes_ok_of_direct (root : Node) (h : isDirectTemplate root = true) :
    walkNodes root = Outcome.ok := by
  unfold isDirectTemplate at h
  split at h
  · rename_i nodes
    rw [walkNodes]
    induction nodes with
    | nil => rw [walkNodes.each]
    | cons n rest ih =>
      rw [List.all_cons, Bool.and_eq_true] at h
      rw [walkNodes.each, walkNodes_ok_of_textOrPlaceholder n h.1]
      exact ih h.2
  · cases h

/-- C17: `Validate` accepts a configuration that has at least one condition,
whose conditions all parse, whose log level is one of the six levels, and whose
log body template is empty or parses into a tree made only of literal text and
direct references to the allowed placeholders (the sample execution of such a
template returning no error). -/
theorem validate_accepts_direct_templates (env : ValidateEnv) (cfg : Config)
    (hcond : cfg.SpanConditions ≠ [] ∨ cfg.EventConditions ≠ [])
    (hspan : cfg.SpanConditions ≠ [] → ∃ parseCondition,
      env.NewSpanParser = Except.ok parseCondition ∧
      ∀ cond ∈ cfg.SpanConditions, parseCondition cond = none)
    (hevent : cfg.EventConditions ≠ [] → ∃ parseCondition,
      env.NewEventParser = Except.ok parseCondition ∧
      ∀ cond ∈ cfg.EventConditions, parseCondition cond = none)
    (hlevel : cfg.LogLevel ∈ validLevels)
    (htmpl : cfg.LogBodyTemplate ≠ "" → ∃ tmpl root,
      env.ParseTemplate cfg.LogBodyTemplate = Except.ok tmpl ∧
      tmpl.Templates = [some root] ∧ isDirectTemplate root = true ∧
      (tmpl.Execute Validate.dummy).2 = none) :
    Validate env cfg = Outcome.ok := by
  have hnot : ¬ (cfg.SpanConditions.length = 0 ∧ cfg.EventConditions.length = 0) := by
    rintro ⟨h1, h2⟩
    rcases hcond with h | h
    · exact h (List.length_eq_zero.1 h1)
    · exact h (List.length_eq_zero.1 h2)
  have h1 : Validate.spanConditions env cfg = Outcome.ok := by
    unfold Validate.spanConditions
    split
    · rename_i hlen
      obtain ⟨parseCondition, hp, hall⟩ :=
        hspan (fun h0 => by rw [h0] at hlen; exact Nat.lt_irrefl 0 hlen)
      rw [hp]
      exact Validate.conditions_ok _ _ _ _ hall
    · rfl
  have h2 : Validate.eventConditions env cfg = Outcome.ok := by
    unfold Validate.eventConditions
    split
    · rename_i hlen
      obtain ⟨parseCondition, hp, hall⟩ :=
        hevent (fun h0 => by rw [h0] at hlen; exact Nat.lt_irrefl 0 hlen)
      rw [hp]
      exact Validate.conditions_ok _ _ _ _ hall
    · rfl
  have h3 : Validate.logBodyTemplate env cfg = Outcome.ok := by
    unfold Validate.logBodyTemplate
    split
    · rename_i hne
      obtain ⟨tmpl, root, hp, htrees, hdirect, hexec⟩ := htmpl hne
      rw [hp]
      simp only [hexec, htrees, Validate.walkTrees, walkNodes_ok_of_direct root hdirect,
        Outcome.andThen]
    · rfl
  simp only [Validate, if_neg hnot, Validate.logLevel_ok cfg hlevel, h1, h2, h3, Outcome.andThen]

/-- Witness of C17: the configurations of `valid_config` and `TestConfigBasic`,
with the templates `Test template` and
`Connection Error: {{.EventName}} in {{.SpanName}}`, are accepted. -/
theorem validate_accepts_direct_templates_witness :
    Validate Sample.testEnv Sample.validConfig = Outcome.ok ∧
      Validate Sample.testEnv Sample.basicConfig = Outcome.ok :=
  ⟨validate_accepts_direct_templates Sample.testEnv Sample.validConfig (Or.inl (by decide))
      (fun _ => ⟨fun _ => none, rfl, fun _ _ => rfl⟩)
      (fun _ => ⟨fun _ => none, rfl, fun _ _ => rfl⟩) (by decide)
      (fun _ => ⟨_, Sample.testTemplateTree, rfl, rfl, rfl, rfl⟩),
    validate_accepts_direct_templates Sample.testEnv Sample.basicConfig (Or.inl (by decide))
      (fun _ => ⟨fun _ => none, rfl, fun _ _ => rfl⟩)
      (fun _ => ⟨fun _ => none, rfl, fun _ _ => rfl⟩) (by decide)
      (fun _ => ⟨_, Sample.basicTemplateTree, rfl, rfl, rfl, rfl⟩)⟩

/-! ## Defaults -/

theorem Conf.IsSet_include_span_attributes (conf : Conf) :
    Conf.IsSet conf "include_span_attributes" = conf.include_span_attributes.isSet := by
  simp [Conf.IsSet]

theorem Conf.IsSet_include_event_attributes (conf : Conf) :
    Conf.IsSet conf "include_event_attributes" = conf.include_event_attributes.isSet := by
  simp [Conf.IsSet]

theorem Conf.IsSet_log_level (conf : Conf) :
    Conf.IsSet conf "log_level" = conf.log_level.isSet := by
  simp [Conf.IsSet]

theorem Conf.IsSet_log_body_template (conf : Conf) :
    Conf.IsSet conf "log_body_template" = conf.log_body_template.isSet := by
  simp [Conf.IsSet]

/-- C19 as stated fails on the code, in two ways.  For a nil source, in which
no key is set, `Unmarshal` returns nil and leaves the receiver as it was, here
without any of the four default values.  For a source that decodes without
error and holds `log_level` and `include_span_attributes` with a null value,
the keys count as set, so no default is applied, and no value is supplied, so
the fields keep what the receiver had: `Fatal` and `false`. -/
theorem nil_source_or_null_key_sets_no_default :
    (∃ c1, Config.Unmarshal Sample.zeroConfig none = Except.ok c1 ∧
        c1.IncludeSpanAttributes = false ∧ c1.IncludeEventAttributes = false ∧
        c1.LogLevel = "" ∧ c1.LogBodyTemplate = "") ∧
      (Sample.nullKeys.decodeError = none ∧
        Conf.IsSet Sample.nullKeys "log_level" = true ∧
        Conf.IsSet Sample.nullKeys "include_span_attributes" = true ∧
        ∃ c2, Config.Unmarshal Sample.fatalConfig (some Sample.nullKeys) = Except.ok c2 ∧
          c2.LogLevel = "Fatal" ∧ c2.IncludeSpanAttributes = false) ∧
      createDefaultConfig.IncludeSpanAttributes = true ∧ createDefaultConfig.LogLevel = "Info" := by
  refine ⟨⟨_, rfl, rfl, rfl, rfl, rfl⟩, ⟨rfl, ?_, ?_, ?_⟩, rfl, rfl⟩
  · rw [Conf.IsSet_log_level]
    rfl
  · rw [Conf.IsSet_include_span_attributes]
    rfl
  · simp only [Config.Unmarshal, Conf.Unmarshal, Conf.IsSet_include_span_attributes,
      Conf.IsSet_include_event_attributes, Conf.IsSet_log_level, Conf.IsSet_log_body_template]
    exact ⟨_, rfl, rfl, rfl⟩

/-- C19, amended: for every receiver and every non-nil source that decodes
without error, `Unmarshal` succeeds and each of the four keys holds the default
when the key is absent from the source, the supplied value when the key has a
value (an explicit `false` or empty string included), and the value the
receiver had before the call when the key is present with a null value; the
defaults are the values of `createDefaultConfig` (true, true, `Info`,
`Span Event: {{.EventName}}`); for a nil source it returns nil and leaves the
receiver unchanged. -/
theorem unmarshal_applies_defaults (c : Config) (conf : Conf) (hdec : conf.decodeError = none) :
    (∃ c1, Config.Unmarshal c (some conf) = Except.ok c1 ∧
        c1.IncludeSpanAttributes =
          (match conf.include_span_attributes with
            | ConfKey.unset => createDefaultConfig.IncludeSpanAttributes
            | ConfKey.null => c.IncludeSpanAttributes
            | ConfKey.value v => v) ∧
        c1.IncludeEventAttributes =
          (match conf.include_event_attributes with
            | ConfKey.unset => createDefaultConfig.IncludeEventAttributes
            | ConfKey.null => c.IncludeEventAttributes
            | ConfKey.value v => v) ∧
        c1.LogLevel =
          (match conf.log_level with
            | ConfKey.unset => createDefaultConfig.LogLevel
            | ConfKey.null => c.LogLevel
            | ConfKey.value v => v) ∧
        c1.LogBodyTemplate =
          (match conf.log_body_template with
            | ConfKey.unset => createDefaultConfig.LogBodyTemplate
            | ConfKey.null => c.LogBodyTemplate
            | ConfKey.value v => v)) ∧
      (createDefaultConfig.IncludeSpanAttributes = true ∧
        createDefaultConfig.IncludeEventAttributes = true ∧
        createDefaultConfig.LogLevel = "Info" ∧
        createDefaultConfig.LogBodyTemplate = "Span Event: \x7b\x7b.EventName\x7d\x7d") ∧
      Config.Unmarshal c none = Except.ok c := by
  refine ⟨?_, ⟨rfl, rfl, rfl, rfl⟩, rfl⟩
  obtain ⟨sc, ec, isa, iea, ll, lbt, de⟩ := conf
  simp only at hdec
  subst hdec
  simp only [Config.Unmarshal, Conf.Unmarshal, Conf.IsSet_include_span_attributes,
    Conf.IsSet_include_event_attributes, Conf.IsSet_log_level, Conf.IsSet_log_body_template]
  cases isa <;> cases iea <;> cases ll <;> cases lbt <;> exact ⟨_, rfl, rfl, rfl, rfl, rfl⟩

/-- Witness of amended C19: on a receiver with values of its own, a source
that sets an explicit `false` and an explicit empty log level keeps them, the
key it does not hold gets its default, and the template key it holds with a
null value keeps the template of the receiver. -/
theorem unmarshal_applies_defaults_witness :
    ∃ c1, Config.Unmarshal Sample.fatalConfig (some Sample.conf) = Except.ok c1 ∧
      c1.IncludeSpanAttributes = false ∧ c1.IncludeEventAttributes = true ∧
      c1.LogLevel = "" ∧ c1.LogBodyTemplate = "custom body" :=
  (unmarshal_applies_defaults Sample.fatalConfig Sample.conf rfl).1

/-! ## Determinism -/

/-- C20: the batch that `ConsumeTraces` accumulates is determined by the batch
of traces and by the configuration, the template, the compiled predicates and
the value rendering of the connector: two runs that agree on these accumulate
equal batches, entry by entry and in the same order, whatever the downstream
consumer does and whichever counters are present. -/
theorem accumulated_logs_determined_by_inputs (c1 c2 : SpanEventConnector) (td : Traces)
    (hconfig : c1.config = c2.config) (htmpl : c1.bodyTemplate = c2.bodyTemplate)
    (hspan : c1.spanOttl = c2.spanOttl) (hevent : c1.eventOttl = c2.eventOttl)
    (hrender : c1.render = c2.render) :
    (ConsumeTraces c1 td).logs = (ConsumeTraces c2 td).logs ∧
      (ConsumeTraces c1 td).logs.length = (ConsumeTraces c2 td).logs.length := by
  have hlogs : (ConsumeTraces c1 td).logs = (ConsumeTraces c2 td).logs := by
    obtain ⟨cfg1, cons1, t1, s1, e1, sh1, lp1, r1⟩ := c1
    obtain ⟨cfg2, cons2, t2, s2, e2, sh2, lp2, r2⟩ := c2
    simp only at hconfig htmpl hspan hevent hrender
    subst hconfig htmpl hspan hevent hrender
    rw [ConsumeTraces_logs, ConsumeTraces_logs]
    rfl
  exact ⟨hlogs, by rw [hlogs]⟩

/-- Witness of C20: the sample connector and the same connector with a failing
consumer and without counters accumulate the same batch. -/
theorem accumulated_logs_determined_by_inputs_witness :
    (ConsumeTraces Sample.connector [Sample.resourceSpans]).logs =
        (ConsumeTraces Sample.otherSink [Sample.resourceSpans]).logs ∧
      (ConsumeTraces Sample.connector [Sample.resourceSpans]).logs.length =
        (ConsumeTraces Sample.otherSink [Sample.resourceSpans]).logs.length :=
  accumulated_logs_determined_by_inputs Sample.connector Sample.otherSink
    [Sample.resourceSpans] rfl rfl rfl rfl rfl

/-! ## The walk over the template tree -/

theorem walkAgrees_ok_nil : walkAgrees Outcome.ok [] true :=
  ⟨fun _ h => (by cases h), fun _ _ h => (by cases h), fun _ h => (by cases h)⟩

theorem walkAgrees_panic : walkAgrees Outcome.panic [] false :=
  ⟨fun _ h => (by cases h), fun h => (by cases h), fun h => (by cases h)⟩

theorem walkAgrees_checkIdent (ident : List String) :
    walkAgrees (walkNodes.checkIdent ident) [ident] true := by
  cases ident with
  | nil =>
    refine ⟨fun _ h => (by cases h), fun _ i hi => ?_, fun _ h => (by cases h)⟩
    rw [List.mem_singleton] at hi
    subst hi
    rfl
  | cons field rest =>
    by_cases hmem : field ∈ allowed
    · refine ⟨fun msg h => ?_, fun _ i hi => ?_, fun _ h => ?_⟩
      · simp [walkNodes.checkIdent, hmem] at h
      · rw [List.mem_singleton] at hi
        subst hi
        simp [isDisallowedRef, hmem]
      · simp [walkNodes.checkIdent, hmem] at h
    · refine ⟨fun msg _ => ⟨field :: rest, List.mem_singleton.2 rfl, ?_⟩, fun h => ?_,
        fun _ h => ?_⟩
      · simp [isDisallowedRef, hmem]
      · simp [walkNodes.checkIdent, hmem] at h
      · simp [walkNodes.checkIdent, hmem] at h

theorem walkAgrees_andThen (a b : Outcome) (ra rb : List (List String)) (ea eb : Bool)
    (ha : walkAgrees a ra ea) (hb : walkAgrees b rb eb) :
    walkAgrees (a.andThen fun _ => b) (ra ++ rb) (ea && eb) := by
  obtain ⟨ha1, ha2, ha3⟩ := ha
  obtain ⟨hb1, hb2, hb3⟩ := hb
  cases a with
  | ok =>
    refine ⟨fun msg h => ?_, fun h i hi => ?_, fun he h => ?_⟩
    · obtain ⟨i, hi, hd⟩ := hb1 msg h
      exact ⟨i, List.mem_append_right _ hi, hd⟩
    · rcases List.mem_append.1 hi with h1 | h1
      · exact ha2 rfl i h1
      · exact hb2 h i h1
    · rw [Bool.and_eq_true] at he
      exact hb3 he.2 h
  | error m =>
    refine ⟨fun msg h => ?_, fun h => (by cases h), fun _ h => (by cases h)⟩
    obtain ⟨i, hi, hd⟩ := ha1 msg h
    exact ⟨i, List.mem_append_left _ hi, hd⟩
  | panic =>
    refine ⟨fun _ h => (by cases h), fun h => (by cases h), fun he _ => ?_⟩
    rw [Bool.and_eq_true] at he
    exact ha3 he.1 rfl

/-- The walk agrees with the references reachable through the node kinds it
has a case for. -/
theorem walkNodes_agrees (n : Node) :
    walkAgrees (walkNodes n) (walkedRefs n) (everyBranchHasElse n) := by
  apply @Node.rec
    (fun n => walkAgrees (walkNodes n) (walkedRefs n) (everyBranchHasElse n))
    (fun l => walkAgrees (walkNodes.each l) (walkedRefs.each l) (everyBranchHasElse.each l))
    (fun o =>
      walkAgrees (walkNodes.elseList o) (walkedRefs.optional o) (everyBranchHasElse.optional o))
  case List => intro nodes ih; rw [walkNodes, walkedRefs, everyBranchHasElse]; exact ih
  case Text => intro t; rw [walkNodes, walkedRefs, everyBranchHasElse]; exact walkAgrees_ok_nil
  case Comment => intro t; rw [walkNodes, walkedRefs, everyBranchHasElse]; exact walkAgrees_ok_nil
  case Action => intro pipe ih; rw [walkNodes, walkedRefs, everyBranchHasElse]; exact ih
  case Pipe => intro a d cmds ih; rw [walkNodes, walkedRefs, everyBranchHasElse]; exact ih
  case Command => intro args ih; rw [walkNodes, walkedRefs, everyBranchHasElse]; exact ih
  case Identifier =>
    intro t; rw [walkNodes, walkedRefs, everyBranchHasElse]; exact walkAgrees_ok_nil
  case Variable =>
    intro ident; rw [walkNodes, walkedRefs, everyBranchHasElse]
    exact walkAgrees_checkIdent ident
  case Dot => rw [walkNodes, walkedRefs, everyBranchHasElse]; exact walkAgrees_ok_nil
  case Nil => rw [walkNodes, walkedRefs, everyBranchHasElse]; exact walkAgrees_ok_nil
  case Field =>
    intro ident; rw [walkNodes, walkedRefs, everyBranchHasElse]
    exact walkAgrees_checkIdent ident
  case Chain =>
    intro node field _; rw [walkNodes, walkedRefs, everyBranchHasElse]; exact walkAgrees_ok_nil
  case Bool => intro b; rw [walkNodes, walkedRefs, everyBranchHasElse]; exact walkAgrees_ok_nil
  case Number => intro t; rw [walkNodes, walkedRefs, everyBranchHasElse]; exact walkAgrees_ok_nil
  case String =>
    intro q t; rw [walkNodes, walkedRefs, everyBranchHasElse]; exact walkAgrees_ok_nil
  case If =>
    intro pipe list elseList ih1 ih2 ih3
    rw [walkNodes, walkedRefs, everyBranchHasElse]
    exact walkAgrees_andThen _ _ _ _ _ _ ih1 (walkAgrees_andThen _ _ _ _ _ _ ih2 ih3)
  case Range =>
    intro pipe list elseList ih1 ih2 ih3
    rw [walkNodes, walkedRefs, everyBranchHasElse]
    exact walkAgrees_andThen _ _ _ _ _ _ ih1 (walkAgrees_andThen _ _ _ _ _ _ ih2 ih3)
  case With =>
    intro pipe list elseList ih1 ih2 ih3
    rw [walkNodes, walkedRefs, everyBranchHasElse]
    exact walkAgrees_andThen _ _ _ _ _ _ ih1 (walkAgrees_andThen _ _ _ _ _ _ ih2 ih3)
  case Break => rw [walkNodes, walkedRefs, everyBranchHasElse]; exact walkAgrees_ok_nil
  case Continue => rw [walkNodes, walkedRefs, everyBranchHasElse]; exact walkAgrees_ok_nil
  case Template =>
    intro name pipe _; rw [walkNodes, walkedRefs, everyBranchHasElse]; exact walkAgrees_ok_nil
  case nil =>
    rw [walkNodes.each, walkedRefs.each, everyBranchHasElse.each]; exact walkAgrees_ok_nil
  case cons =>
    intro head tail ih1 ih2
    rw [walkNodes.each, walkedRefs.each, everyBranchHasElse.each]
    exact walkAgrees_andThen _ _ _ _ _ _ ih1 ih2
  case none =>
    rw [walkNodes.elseList, walkedRefs.optional, everyBranchHasElse.optional]
    exact walkAgrees_panic
  case some =>
    intro val ih
    rw [walkNodes.elseList, walkedRefs.optional, everyBranchHasElse.optional]
    exact ih

/-- On a tree in which every reachable `if`, `range` and `with` node has an
else list, the walk returns an error exactly when some reachable field or
variable reference has a first identifier outside the allowed names. -/
theorem walkNodes_error_iff_of_else (n : Node) (helse : everyBranchHasElse n = true) :
    (∃ msg, walkNodes n = Outcome.error msg) ↔
      ∃ ident ∈ walkedRefs n, isDisallowedRef ident = true := by
  obtain ⟨h1, h2, h3⟩ := walkNodes_agrees n
  constructor
  · rintro ⟨msg, h⟩
    exact h1 msg h
  · rintro ⟨ident, hmem, hbad⟩
    cases hw : walkNodes n with
    | ok =>
      have := h2 hw ident hmem
      rw [hbad] at this
      cases this
    | error msg => exact ⟨msg, rfl⟩
    | panic => exact absurd hw (h3 helse)

/-- C21, evaluated on the tree of
`{{if .EventName}}x{{end}}{{if false}}{{.BadField}}{{end}}`: the field
reference `.BadField` is reachable through list children, the body of an `if`,
an action pipeline, a command and its argument, and its first identifier is
not allowed, yet the walk does not return an error: it panics on the nil else
list of the first `if`, and so does `Validate`. -/
theorem walk_panics_on_nil_else_before_disallowed_field :
    ["BadField"] ∈ walkedRefs Sample.elselessTree ∧ isDisallowedRef ["BadField"] = true ∧
      (∃ tmpl, Sample.elselessEnv.ParseTemplate Sample.elselessConfig.LogBodyTemplate =
          Except.ok tmpl ∧ tmpl.Templates = [some Sample.elselessTree] ∧
          (tmpl.Execute Validate.dummy).2 = none) ∧
      walkNodes Sample.elselessTree = Outcome.panic ∧
      Validate Sample.elselessEnv Sample.elselessConfig = Outcome.panic := by
  refine ⟨?_, by decide, ⟨Sample.elselessTemplate, rfl, rfl, rfl⟩, ?_, ?_⟩
  · simp [Sample.elselessTree, walkedRefs, walkedRefs.each, walkedRefs.optional]
  · simp [Sample.elselessTree, walkNodes, walkNodes.each, walkNodes.elseList,
      walkNodes.checkIdent, allowed, Outcome.andThen]
  · rfl

/-! ## Attribute keys -/

theorem Map.keys_setFirst (m : Map) (k : String) (v : Value) :
    (Map.setFirst m k v).map Prod.fst = m.map Prod.fst := by
  induction m with
  | nil => rfl
  | cons kv rest ih =>
    obtain ⟨k0, v0⟩ := kv
    by_cases hk : k0 = k
    · simp [Map.setFirst, hk]
    · simp [Map.setFirst, hk, ih]

theorem Map.Get_eq_none_iff (m : Map) (k : String) :
    Map.Get m k = none ↔ k ∉ m.map Prod.fst := by
  induction m with
  | nil => simp [Map.Get]
  | cons kv rest ih =>
    obtain ⟨k0, v0⟩ := kv
    by_cases hk : k0 = k
    · simp [Map.Get, hk]
    · have hk1 : ¬ k = k0 := fun h => hk h.symm
      simp only [Map.Get, hk, if_false, ih, List.map_cons, List.mem_cons, hk1, false_or]

/-- The keys after `PutStr`: unchanged when the key is present, with the key
appended otherwise. -/
theorem Map.keys_PutStr (m : Map) (k v : String) :
    (Map.PutStr m k v).map Prod.fst =
      if k ∈ m.map Prod.fst then m.map Prod.fst else m.map Prod.fst ++ [k] := by
  unfold Map.PutStr
  cases h : Map.Get m k with
  | some x =>
    have hmem : k ∈ m.map Prod.fst := by
      by_contra hno
      rw [(Map.Get_eq_none_iff m k).2 hno] at h
      cases h
    simp only [Map.keys_setFirst, if_pos hmem]
  | none =>
    have hno := (Map.Get_eq_none_iff m k).1 h
    simp only [if_neg hno, List.map_append, List.map_cons, List.map_nil]

/-- The keys after `v.CopyTo(attrs.PutEmpty(key))`: unchanged when the key is
present, with the key appended otherwise. -/
theorem Map.keys_putCopy (m : Map) (k : String) (v : Value) :
    (Map.putCopy m k v).map Prod.fst =
      if k ∈ m.map Prod.fst then m.map Prod.fst else m.map Prod.fst ++ [k] := by
  have hempty : (Map.PutEmpty m k).map Prod.fst =
      if k ∈ m.map Prod.fst then m.map Prod.fst else m.map Prod.fst ++ [k] := by
    unfold Map.PutEmpty
    cases h : Map.Get m k with
    | some x =>
      have hmem : k ∈ m.map Prod.fst := by
        by_contra hno
        rw [(Map.Get_eq_none_iff m k).2 hno] at h
        cases h
      simp only [Map.keys_setFirst, if_pos hmem]
    | none =>
      have hno := (Map.Get_eq_none_iff m k).1 h
      simp only [if_neg hno, List.map_append, List.map_cons, List.map_nil]
  simp only [Map.putCopy, Map.Get_PutEmpty_same, Map.keys_setFirst, hempty]

theorem Map.mem_keys_putCopy (m : Map) (k key : String) (v : Value) :
    key ∈ (Map.putCopy m k v).map Prod.fst ↔ key ∈ m.map Prod.fst ∨ key = k := by
  rw [Map.keys_putCopy]
  by_cases hmem : k ∈ m.map Prod.fst
  · rw [if_pos hmem]
    constructor
    · exact Or.inl
    · rintro (h | h)
      · exact h
      · rw [h]
        exact hmem
  · rw [if_neg hmem]
    simp

theorem Map.nodup_keys_putCopy (m : Map) (k : String) (v : Value)
    (h : (m.map Prod.fst).Nodup) : ((Map.putCopy m k v).map Prod.fst).Nodup := by
  rw [Map.keys_putCopy]
  by_cases hmem : k ∈ m.map Prod.fst
  · rw [if_pos hmem]
    exact h
  · rw [if_neg hmem]
    exact List.Nodup.append h (List.nodup_singleton k) (by simpa using hmem)

/-- The keys after copying a list of attributes under a prefix. -/
theorem Map.mem_keys_copyAll (pfx : String) (l : Map) (m : Map) (key : String) :
    key ∈ (Map.Range l (fun attrs k v => Map.putCopy attrs (pfx ++ k) v) m).map Prod.fst ↔
      key ∈ m.map Prod.fst ∨ ∃ k ∈ l.map Prod.fst, key = pfx ++ k := by
  induction l generalizing m with
  | nil => simp [Map.Range]
  | cons kv rest ih =>
    simp only [Map.Range, List.foldl_cons] at ih ⊢
    rw [ih, Map.mem_keys_putCopy]
    simp only [List.map_cons, List.mem_cons, exists_eq_or_imp]
    tauto

theorem Map.nodup_keys_copyAll (pfx : String) (l : Map) (m : Map)
    (h : (m.map Prod.fst).Nodup) :
    ((Map.Range l (fun attrs k v => Map.putCopy attrs (pfx ++ k) v) m).map Prod.fst).Nodup := by
  induction l generalizing m with
  | nil => exact h
  | cons kv rest ih =>
    simp only [Map.Range, List.foldl_cons] at ih ⊢
    exact ih _ (Map.nodup_keys_putCopy m _ _ h)

theorem createLogRecord.record_base (span : Span) (event : SpanEvent) :
    Map.PutStr (Map.PutStr (Map.PutStr [] "span.name" span.Name) "span.kind"
        (SpanKind.String span.Kind)) "event.name" event.Name =
      [("span.name", Value.str span.Name), ("span.kind", Value.str (SpanKind.String span.Kind)),
        ("event.name", Value.str event.Name)] := by
  simp [Map.PutStr, Map.Get]

/-- C22: the attribute keys of the record built by `createLogRecord` are the
three base keys, the keys `"span." ++ k` of the span attributes when span
attributes are included and the keys `"event." ++ k` of the event attributes
when event attributes are included, each once and no other; with both flags
off the attributes are exactly the three base attributes. -/
theorem record_attribute_keys (c : SpanEventConnector) (event : SpanEvent) (span : Span)
    (resource : Resource) (scope : InstrumentationScope) (logs : Logs) :
    ∃ rl sl lr, createLogRecord c event span resource scope logs = logs ++ [rl] ∧
      rl.ScopeLogs = [sl] ∧ sl.LogRecords = [lr] ∧
      (∀ key, key ∈ lr.Attributes.map Prod.fst ↔
        (key = "span.name" ∨ key = "span.kind" ∨ key = "event.name") ∨
        (c.config.IncludeSpanAttributes = true ∧
          ∃ k ∈ span.Attributes.map Prod.fst, key = "span." ++ k) ∨
        (c.config.IncludeEventAttributes = true ∧
          ∃ k ∈ event.Attributes.map Prod.fst, key = "event." ++ k)) ∧
      (lr.Attributes.map Prod.fst).Nodup ∧
      (c.config.IncludeSpanAttributes = true ∨ c.config.IncludeEventAttributes = true ∨
        lr.Attributes =
          [("span.name", Value.str span.Name),
            ("span.kind", Value.str (SpanKind.String span.Kind)),
            ("event.name", Value.str event.Name)]) := by
  have hbase := createLogRecord.record_base span event
  have hattrs : (createLogRecord.record c event span).Attributes =
      (if c.config.IncludeEventAttributes then
        Map.Range event.Attributes (fun attrs k v => Map.putCopy attrs ("event." ++ k) v)
          (if c.config.IncludeSpanAttributes then
            Map.Range span.Attributes (fun attrs k v => Map.putCopy attrs ("span." ++ k) v)
              [("span.name", Value.str span.Name),
                ("span.kind", Value.str (SpanKind.String span.Kind)),
                ("event.name", Value.str event.Name)]
          else
            [("span.name", Value.str span.Name),
              ("span.kind", Value.str (SpanKind.String span.Kind)),
              ("event.name", Value.str event.Name)])
      else
        (if c.config.IncludeSpanAttributes then
          Map.Range span.Attributes (fun attrs k v => Map.putCopy attrs ("span." ++ k) v)
            [("span.name", Value.str span.Name),
              ("span.kind", Value.str (SpanKind.String span.Kind)),
              ("event.name", Value.str event.Name)]
        else
          [("span.name", Value.str span.Name),
            ("span.kind", Value.str (SpanKind.String span.Kind)),
            ("event.name", Value.str event.Name)])) := by
    rw [← hbase]
    rfl
  have hnd : ([("span.name", Value.str span.Name),
      ("span.kind", Value.str (SpanKind.String span.Kind)),
      ("event.name", Value.str event.Name)].map Prod.fst).Nodup := by
    simp only [List.map_cons, List.map_nil]
    decide
  refine ⟨_, _, _, rfl, rfl, rfl, ?_, ?_, ?_⟩
  · intro key
    rw [hattrs]
    cases hs : c.config.IncludeSpanAttributes <;> cases he : c.config.IncludeEventAttributes <;>
      simp only [Bool.false_eq_true, eq_self_iff_true, if_false, if_true,
        Map.mem_keys_copyAll] <;>
      simp [or_assoc]
  · rw [hattrs]
    cases hs : c.config.IncludeSpanAttributes <;> cases he : c.config.IncludeEventAttributes
    · simp
    · simpa using Map.nodup_keys_copyAll "event." event.Attributes _ hnd
    · simpa using Map.nodup_keys_copyAll "span." span.Attributes _ hnd
    · simpa using Map.nodup_keys_copyAll "event." event.Attributes _
        (Map.nodup_keys_copyAll "span." span.Attributes _ hnd)
  · rw [hattrs]
    cases hs : c.config.IncludeSpanAttributes <;> cases he : c.config.IncludeEventAttributes <;>
      simp

/-! ## Counters -/

theorem createLogRecord_length (c : SpanEventConnector) (event : SpanEvent) (span : Span)
    (resource : Resource) (scope : InstrumentationScope) (logs : Logs) :
    (createLogRecord c event span resource scope logs).length = logs.length + 1 := by
  simp [createLogRecord]

/-- One event adds the same amount to the count of produced logs and to the
number of entries of the batch, and leaves the count of handled spans. -/
theorem eventStep_balance (c : SpanEventConnector) (span : Span) (resource : Resource)
    (scope : InstrumentationScope) (scopeSpans : ScopeSpans) (resourceSpans : ResourceSpans)
    (st : LoopState) (event : SpanEvent) :
    (ConsumeTraces.eventStep c span resource scope scopeSpans resourceSpans st
        event).numLogsProduced + st.logs.length =
      (ConsumeTraces.eventStep c span resource scope scopeSpans resourceSpans st
        event).logs.length + st.numLogsProduced ∧
    (ConsumeTraces.eventStep c span resource scope scopeSpans resourceSpans st
        event).numSpansHandled = st.numSpansHandled := by
  by_cases h : matchesEventConditionsWithContext c event span resource scope scopeSpans
      resourceSpans
  · constructor
    · simp only [ConsumeTraces.eventStep, h, if_true, createLogRecord_length]
      omega
    · simp only [ConsumeTraces.eventStep, h, if_true]
  · simp [ConsumeTraces.eventStep, h, Nat.add_comm]

/-- A loop whose step keeps the balance between produced logs and batch
entries keeps it over a whole list. -/
theorem foldl_balance {α : Type} (step : LoopState → α → LoopState)
    (h : ∀ st x, (step st x).numLogsProduced + st.logs.length =
      (step st x).logs.length + st.numLogsProduced) (l : List α) (st : LoopState) :
    (l.foldl step st).numLogsProduced + st.logs.length =
      (l.foldl step st).logs.length + st.numLogsProduced := by
  induction l generalizing st with
  | nil => exact Nat.add_comm _ _
  | cons x rest ih =>
    rw [List.foldl_cons]
    have h1 := ih (step st x)
    have h2 := h st x
    omega

theorem spanStep_balance (c : SpanEventConnector) (resource : Resource)
    (scope : InstrumentationScope) (scopeSpans : ScopeSpans) (resourceSpans : ResourceSpans)
    (st : LoopState) (span : Span) :
    (ConsumeTraces.spanStep c resource scope scopeSpans resourceSpans st span).numLogsProduced +
        st.logs.length =
      (ConsumeTraces.spanStep c resource scope scopeSpans resourceSpans st span).logs.length +
        st.numLogsProduced := by
  by_cases hm : matchesSpanConditionsWithContext c span resource scope scopeSpans resourceSpans
  · simp only [ConsumeTraces.spanStep, hm, Bool.not_true, Bool.false_eq_true, if_false]
    exact foldl_balance _
      (fun st0 ev => (eventStep_balance c span resource scope scopeSpans resourceSpans st0 ev).1)
      span.Events { st with numSpansHandled := st.numSpansHandled + 1 }
  · simp [ConsumeTraces.spanStep, hm, Nat.add_comm]

theorem scopeStep_balance (c : SpanEventConnector) (resource : Resource)
    (resourceSpans : ResourceSpans) (st : LoopState) (scopeSpans : ScopeSpans) :
    (ConsumeTraces.scopeStep c resource resourceSpans st scopeSpans).numLogsProduced +
        st.logs.length =
      (ConsumeTraces.scopeStep c resource resourceSpans st scopeSpans).logs.length +
        st.numLogsProduced :=
  foldl_balance _ (fun st0 span => spanStep_balance c resource scopeSpans.Scope scopeSpans
    resourceSpans st0 span) scopeSpans.Spans st

theorem resourceStep_balance (c : SpanEventConnector) (st : LoopState)
    (resourceSpans : ResourceSpans) :
    (ConsumeTraces.resourceStep c st resourceSpans).numLogsProduced + st.logs.length =
      (ConsumeTraces.resourceStep c st resourceSpans).logs.length + st.numLogsProduced :=
  foldl_balance _ (fun st0 ss => scopeStep_balance c resourceSpans.Resource resourceSpans st0 ss)
    resourceSpans.ScopeSpans st

/-- At the end of the traversal the count of produced logs is the number of
entries of the batch. -/
theorem traverse_numLogsProduced (c : SpanEventConnector) (td : Traces) :
    (ConsumeTraces.traverse c td).numLogsProduced = (ConsumeTraces.traverse c td).logs.length := by
  have h := foldl_balance _ (resourceStep_balance c) td
    { logs := [], numSpansHandled := 0, numLogsProduced := 0 }
  simpa [ConsumeTraces.traverse] using h

/-- A loop whose step adds the length of `g x` to the count of handled spans
adds the length of the concatenation over the list. -/
theorem foldl_spansHandled_eq {α : Type} (step : LoopState → α → LoopState) (g : α → List Span)
    (h : ∀ st x, (step st x).numSpansHandled = st.numSpansHandled + (g x).length) (l : List α)
    (st : LoopState) :
    (l.foldl step st).numSpansHandled = st.numSpansHandled + (l.flatMap g).length := by
  induction l generalizing st with
  | nil => simp
  | cons x rest ih =>
    rw [List.foldl_cons, ih, h, List.flatMap_cons, List.length_append]
    omega

theorem flatMap_ite_singleton {α : Type} (p : α → Bool) (l : List α) :
    (l.flatMap fun x => if p x then [x] else []) = l.filter p := by
  induction l with
  | nil => rfl
  | cons x rest ih =>
    by_cases hp : p x
    · simp [List.flatMap_cons, List.filter_cons, hp, ih]
    · simp [List.flatMap_cons, List.filter_cons, hp, ih]

theorem spanStep_numSpansHandled (c : SpanEventConnector) (resource : Resource)
    (scope : InstrumentationScope) (scopeSpans : ScopeSpans) (resourceSpans : ResourceSpans)
    (st : LoopState) (span : Span) :
    (ConsumeTraces.spanStep c resource scope scopeSpans resourceSpans st span).numSpansHandled =
      st.numSpansHandled +
        (if matchesSpanConditionsWithContext c span resource scope scopeSpans resourceSpans then
          [span]
        else []).length := by
  by_cases hm : matchesSpanConditionsWithContext c span resource scope scopeSpans resourceSpans
  · simp only [ConsumeTraces.spanStep, hm, Bool.not_true, Bool.false_eq_true, if_false, if_true]
    have hloop : ∀ (events : List SpanEvent) (st0 : LoopState),
        (events.foldl (ConsumeTraces.eventStep c span resource scope scopeSpans resourceSpans)
          st0).numSpansHandled = st0.numSpansHandled := by
      intro events
      induction events with
      | nil => intro st0; rfl
      | cons ev rest ih =>
        intro st0
        rw [List.foldl_cons, ih,
          (eventStep_balance c span resource scope scopeSpans resourceSpans st0 ev).2]
    rw [hloop]
    rfl
  · simp [ConsumeTraces.spanStep, hm]

/-- At the end of the traversal the count of handled spans is the number of
spans that passed the span conditions. -/
theorem traverse_numSpansHandled (c : SpanEventConnector) (td : Traces) :
    (ConsumeTraces.traverse c td).numSpansHandled = (matchedSpans c td).length := by
  have hscope : ∀ (rs : ResourceSpans) (st : LoopState) (ss : ScopeSpans),
      (ConsumeTraces.scopeStep c rs.Resource rs st ss).numSpansHandled =
        st.numSpansHandled + (ss.Spans.filter fun span =>
          matchesSpanConditionsWithContext c span rs.Resource ss.Scope ss rs).length := by
    intro rs st ss
    simp only [ConsumeTraces.scopeStep]
    rw [foldl_spansHandled_eq _ _
      (fun st0 span => spanStep_numSpansHandled c rs.Resource ss.Scope ss rs st0 span),
      flatMap_ite_singleton]
  have hres : ∀ (st : LoopState) (rs : ResourceSpans),
      (ConsumeTraces.resourceStep c st rs).numSpansHandled =
        st.numSpansHandled + (rs.ScopeSpans.flatMap fun ss => ss.Spans.filter fun span =>
          matchesSpanConditionsWithContext c span rs.Resource ss.Scope ss rs).length := by
    intro st rs
    simp only [ConsumeTraces.resourceStep]
    exact foldl_spansHandled_eq _ _ (fun st0 ss => hscope rs st0 ss) rs.ScopeSpans st
  simp only [ConsumeTraces.traverse]
  rw [foldl_spansHandled_eq _ _ hres td _]
  simp [matchedSpans]

/-- C23: `ConsumeTraces` never adds to the logs_produced counter.  Each step of
the traversal adds the same amount to the running count of produced logs and
to the number of entries of the batch, so the two are equal at the end, and
the recording code is reached only with both equal to 0.  The spans_handled
counter receives an add, of the number of spans that matched, exactly when
the instrument is present, at least one span matched and no (span, event)
pair matched. -/
theorem logs_produced_counter_never_updated (c : SpanEventConnector) (td : Traces) :
    (ConsumeTraces c td).logsProducedAdds = [] ∧
      (ConsumeTraces.traverse c td).numLogsProduced =
        (ConsumeTraces.traverse c td).logs.length ∧
      (∀ (span : Span) (resource : Resource) (scope : InstrumentationScope)
        (scopeSpans : ScopeSpans) (resourceSpans : ResourceSpans) (st : LoopState)
        (event : SpanEvent),
        (ConsumeTraces.eventStep c span resource scope scopeSpans resourceSpans st
            event).numLogsProduced + st.logs.length =
          (ConsumeTraces.eventStep c span resource scope scopeSpans resourceSpans st
            event).logs.length + st.numLogsProduced) ∧
      (∀ (st : LoopState) (resourceSpans : ResourceSpans),
        (ConsumeTraces.resourceStep c st resourceSpans).numLogsProduced + st.logs.length =
          (ConsumeTraces.resourceStep c st resourceSpans).logs.length + st.numLogsProduced) ∧
      (ConsumeTraces c td).spansHandledAdds =
        (if c.spansHandledCounter = true ∧ 0 < (matchedSpans c td).length ∧
            (matchedPairs c td).length = 0 then
          [(matchedSpans c td).length]
        else []) := by
  have hlogs := traverse_numLogsProduced c td
  have hspans := traverse_numSpansHandled c td
  have hlen := traverse_logs_length c td
  refine ⟨?_, hlogs, ?_, resourceStep_balance c, ?_⟩
  · by_cases h : (ConsumeTraces.traverse c td).logs.length > 0
    · simp only [ConsumeTraces, if_pos h]
    · have h0 : (ConsumeTraces.traverse c td).numLogsProduced = 0 := by omega
      simp [ConsumeTraces, h, h0]
  · intro span resource scope scopeSpans resourceSpans st event
    exact (eventStep_balance c span resource scope scopeSpans resourceSpans st event).1
  · by_cases h : (ConsumeTraces.traverse c td).logs.length > 0
    · have hp : ¬ (matchedPairs c td).length = 0 := by omega
      simp only [ConsumeTraces, if_pos h]
      rw [if_neg (fun hc => hp hc.2.2)]
    · have hp : (matchedPairs c td).length = 0 := by omega
      simp only [ConsumeTraces, if_neg h, hspans, hp]
      by_cases hc : c.spansHandledCounter = true <;>
        by_cases hn : 0 < (matchedSpans c td).length <;> simp [hc, hn]

/-- On the sample batch with an event statement that yields false, two spans
match and no event does: the spans_handled counter receives 2, the
logs_produced counter nothing, and the consumer is not called. -/
theorem spans_handled_recorded_when_no_event_matches :
    (ConsumeTraces Sample.noEventMatches [Sample.resourceSpans]).spansHandledAdds = [2] ∧
      (ConsumeTraces Sample.noEventMatches [Sample.resourceSpans]).logsProducedAdds = [] ∧
      (ConsumeTraces Sample.noEventMatches [Sample.resourceSpans]).consumerCalls = [] :=
  ⟨rfl, rfl, rfl⟩

/-- With both include flags off the sample record has the three base
attributes and nothing else. -/
theorem base_attributes_only_when_flags_off :
    (createLogRecord.record Sample.baseOnly Sample.event Sample.span).Attributes =
      [("span.name", Value.str "GET /api/cart"), ("span.kind", Value.str "Client"),
        ("event.name", Value.str "exception")] :=
  rfl

/-! ## Defaults and validation -/

/-- C24: the configuration returned by `createDefaultConfig` is rejected by
`Validate`, and so is every configuration with both condition lists empty,
whatever its include flags, log level and template: a configuration obtained
from the defaults passes only after a condition is added. -/
theorem default_config_rejected (env : ValidateEnv) (cfg : Config) :
    createDefaultConfig.SpanConditions = [] ∧ createDefaultConfig.EventConditions = [] ∧
      Validate env createDefaultConfig =
        Outcome.error "at least one span condition or event condition must be specified" ∧
      Validate env
          { createDefaultConfig with
            IncludeSpanAttributes := cfg.IncludeSpanAttributes
            IncludeEventAttributes := cfg.IncludeEventAttributes
            LogLevel := cfg.LogLevel
            LogBodyTemplate := cfg.LogBodyTemplate } =
        Outcome.error "at least one span condition or event condition must be specified" ∧
      Validate env createDefaultConfig ≠ Outcome.ok := by
  refine ⟨rfl, rfl, ?_, ?_, ?_⟩
  · simp [Validate, createDefaultConfig]
  · simp [Validate, createDefaultConfig]
  · simp [Validate, createDefaultConfig]

/-! ## Concatenation of batches -/

theorem matchedPairs_append (c : SpanEventConnector) (a b : Traces) :
    matchedPairs c (a ++ b) = matchedPairs c a ++ matchedPairs c b := by
  simp only [matchedPairs, List.flatMap_append]

/-- C25: the batch accumulated for the concatenation of two batches of traces
is the batch accumulated for the first followed by the batch accumulated for
the second, and the batch accumulated for the empty batch is empty; the entry
appended for a matched pair is built from its event, span, resource and scope
alone, whatever the batch holds so far. -/
theorem accumulated_logs_of_concatenation (c : SpanEventConnector) (a b : Traces) :
    (ConsumeTraces c (a ++ b)).logs = (ConsumeTraces c a).logs ++ (ConsumeTraces c b).logs ∧
      (ConsumeTraces c []).logs = [] ∧
      matchedPairs c (a ++ b) = matchedPairs c a ++ matchedPairs c b ∧
      (ConsumeTraces c (a ++ b)).logs =
        (matchedPairs c a ++ matchedPairs c b).flatMap (fun p =>
          createLogRecord c p.event p.span p.resourceSpans.Resource p.scopeSpans.Scope []) ∧
      ∀ (event : SpanEvent) (span : Span) (resource : Resource) (scope : InstrumentationScope)
        (logs : Logs),
        createLogRecord c event span resource scope logs =
          logs ++ createLogRecord c event span resource scope [] := by
  refine ⟨?_, ?_, matchedPairs_append c a b, ?_, createLogRecord_append c⟩
  · simp only [ConsumeTraces_logs, traverse_logs_eq, matchedPairs_append, List.flatMap_append]
  · rw [ConsumeTraces_logs]
    rfl
  · rw [ConsumeTraces_logs, traverse_logs_eq, matchedPairs_append]

end SpanEventsToLog
